import Mathlib

/-!
  Verification of the hackclub/format asset-rehosting pipeline.

  This file shallowly embeds the Go sources of the repository:

  * `internal/util` — content-type helpers, SHA-256 based storage keys
    (`Base32Key`), HTTP fetching with SSRF protection (`FetchURL`,
    `isPrivateIP`);
  * `internal/imageproc/simple.go` — the image `Processor` (format decision,
    resize-bound computation `calculateDimensionsWithMax`, transparency
    check `hasRealTransparency`);
  * `internal/assets` — `ProcessFromData` (hashing, dedup against the
    object store, upload) and `ProcessBatch` / `HandleBatch`;
  * `internal/http/router.go` — the HTML transformer (`processImages`,
    `Transform`, `sanitizeHTML`, `removeDangerousAttributes`).

  Bytes are modelled as `List Nat` (each entry a byte value), Go's
  `(T, error)` returns as `Except String T`, and the external collaborators
  (the bimg/libvips image library, `http.DetectContentType`, the network,
  and the R2 object store) as explicit function parameters or a small state
  structure, so every embedded operation is executable.
-/

set_option autoImplicit false

namespace HackclubFormat

/-! ## util: content types (internal/util, content-type helpers) -/

/-- Embedding of `util.IsImageMIME`: the supported image MIME allowlist. -/
def IsImageMIME (contentType : String) : Bool :=
  match contentType with
  | "image/jpeg" | "image/jpg" | "image/png" | "image/webp" | "image/gif"
  | "image/tiff" | "image/heif" | "image/avif" => true
  | _ => false

/-- Embedding of `util.GetImageExtension`: file extension for a MIME type,
with `.jpg` as the default fallback. -/
def GetImageExtension (contentType : String) : String :=
  match contentType with
  | "image/jpeg" | "image/jpg" => ".jpg"
  | "image/png" => ".png"
  | "image/webp" => ".webp"
  | "image/gif" => ".gif"
  | "image/tiff" => ".tiff"
  | "image/heif" => ".heif"
  | "image/avif" => ".avif"
  | _ => ".jpg"

/-- Embedding of `util.ShouldConvertToJPEG`: keep PNG only when the image
has transparency; convert PNG/TIFF/WEBP (and unknown formats) to JPEG. -/
def ShouldConvertToJPEG (contentType : String) (hasTransparency : Bool) : Bool :=
  if hasTransparency then false
  else
    match contentType with
    | "image/png" | "image/tiff" | "image/webp" => true
    | "image/jpeg" | "image/jpg" => false
    | _ => true

/-- Go's `strings.HasPrefix`. -/
def strStartsWith (s pre : String) : Bool := decide (pre.toList <+: s.toList)

/-! ## util: SHA-256 (Go `crypto/sha256`, as called by `util.Base32Key`)

The hash itself is Go standard library code; it is embedded here
concretely, as FIPS 180-4 SHA-256 over byte lists, with 32-bit words
modelled as `Nat` reduced mod `2^32`. -/

/-- Reduce a natural number to a 32-bit word. -/
def w32 (n : Nat) : Nat := n % 4294967296

/-- Right-rotation of a 32-bit word by `n` bits. -/
def rotr32 (x n : Nat) : Nat :=
  w32 ((x >>> n) + ((x % 2 ^ n) * 2 ^ (32 - n)))

/-- Bitwise complement of a 32-bit word. -/
def not32 (x : Nat) : Nat := 4294967295 - w32 x

/-- SHA-256 `Ch` function. -/
def shaCh (x y z : Nat) : Nat := (x &&& y) ^^^ (not32 x &&& z)

/-- SHA-256 `Maj` function. -/
def shaMaj (x y z : Nat) : Nat := (x &&& y) ^^^ (x &&& z) ^^^ (y &&& z)

/-- SHA-256 big sigma-0. -/
def sigB0 (x : Nat) : Nat := rotr32 x 2 ^^^ rotr32 x 13 ^^^ rotr32 x 22

/-- SHA-256 big sigma-1. -/
def sigB1 (x : Nat) : Nat := rotr32 x 6 ^^^ rotr32 x 11 ^^^ rotr32 x 25

/-- SHA-256 small sigma-0. -/
def sigS0 (x : Nat) : Nat := rotr32 x 7 ^^^ rotr32 x 18 ^^^ (x >>> 3)

/-- SHA-256 small sigma-1. -/
def sigS1 (x : Nat) : Nat := rotr32 x 17 ^^^ rotr32 x 19 ^^^ (x >>> 10)

/-- The 64 SHA-256 round constants. -/
def sha256K : List Nat :=
  [1116352408, 1899447441, 3049323471, 3921009573, 961987163,
   1508970993, 2453635748, 2870763221, 3624381080, 310598401,
   607225278, 1426881987, 1925078388, 2162078206, 2614888103,
   3248222580, 3835390401, 4022224774, 264347078, 604807628,
   770255983, 1249150122, 1555081692, 1996064986, 2554220882,
   2821834349, 2952996808, 3210313671, 3336571891, 3584528711,
   113926993, 338241895, 666307205, 773529912, 1294757372,
   1396182291, 1695183700, 1986661051, 2177026350, 2456956037,
   2730485921, 2820302411, 3259730800, 3345764771, 3516065817,
   3600352804, 4094571909, 275423344, 430227734, 506948616,
   659060556, 883997877, 958139571, 1322822218, 1537002063,
   1747873779, 1955562222, 2024104815, 2227730452, 2361852424,
   2428436474, 2756734187, 3204031479, 3329325298]

/-- The SHA-256 initial hash value. -/
def sha256H0 : List Nat :=
  [1779033703, 3144134277, 1013904242, 2773480762, 1359893119,
   2600822924, 528734635, 1541459225]

/-- Big-endian 8-byte encoding of a natural number. -/
def be64 (n : Nat) : List Nat :=
  [n / 2 ^ 56 % 256, n / 2 ^ 48 % 256, n / 2 ^ 40 % 256, n / 2 ^ 32 % 256,
   n / 2 ^ 24 % 256, n / 2 ^ 16 % 256, n / 2 ^ 8 % 256, n % 256]

/-- SHA-256 message padding: a 1-bit, zeros to 56 mod 64, then the
64-bit big-endian bit length. -/
def sha256Pad (msg : List Nat) : List Nat :=
  let L := msg.length
  let zeros := (120 - (L + 1) % 64) % 64
  msg ++ 128 :: List.replicate zeros 0 ++ be64 (L * 8)

/-- Group a byte list into big-endian 32-bit words. -/
def bytesToWords : List Nat → List Nat
  | a :: b :: c :: d :: rest => (((a * 256 + b) * 256 + c) * 256 + d) :: bytesToWords rest
  | _ => []

/-- Extend a 16-word message block by `n` further schedule words. -/
def sha256Extend (ws : List Nat) : Nat → List Nat
  | 0 => ws
  | n + 1 =>
    let ws' := sha256Extend ws n
    let len := ws'.length
    ws' ++ [w32 (sigS1 (ws'.getD (len - 2) 0) + ws'.getD (len - 7) 0 +
                 sigS0 (ws'.getD (len - 15) 0) + ws'.getD (len - 16) 0)]

/-- One SHA-256 compression round: `kw` is the round constant paired with
the schedule word, the state is the eight working variables. -/
def sha256Round (st : List Nat) (kw : Nat × Nat) : List Nat :=
  match st with
  | [a, b, c, d, e, f, g, h] =>
    let t1 := w32 (h + sigB1 e + shaCh e f g + kw.1 + kw.2)
    let t2 := w32 (sigB0 a + shaMaj a b c)
    [w32 (t1 + t2), a, b, c, w32 (d + t1), e, f, g]
  | other => other

/-- Compress one padded 64-byte block into the running hash value. -/
def sha256Block (h : List Nat) (block : List Nat) : List Nat :=
  let ws := sha256Extend (bytesToWords block) 48
  let st := (sha256K.zip ws).foldl sha256Round h
  List.zipWith (fun x y => w32 (x + y)) h st

/-- Split a byte list into 64-byte blocks. -/
def toBlocks (bs : List Nat) : List (List Nat) :=
  if h : bs = [] then []
  else bs.take 64 :: toBlocks (bs.drop 64)
termination_by bs.length
decreasing_by
  simp only [List.length_drop]
  exact Nat.sub_lt (List.length_pos.mpr h) (by decide)

/-- Big-endian 4-byte encoding of a 32-bit word. -/
def be32 (n : Nat) : List Nat :=
  [n / 2 ^ 24 % 256, n / 2 ^ 16 % 256, n / 2 ^ 8 % 256, n % 256]

/-- SHA-256 of a byte list, as the 32-byte digest. -/
def sha256 (msg : List Nat) : List Nat :=
  ((toBlocks (sha256Pad msg)).foldl sha256Block sha256H0).flatMap be32

/-- Lower-case hex digit for a value below 16. -/
def hexDigit (n : Nat) : Char :=
  "0123456789abcdef".toList.getD n '0'

/-- Go's `fmt.Sprintf("%x", hash)`: lower-case hex of a byte list. -/
def hexBytes (bs : List Nat) : String :=
  String.mk (bs.flatMap fun b => [hexDigit (b / 16 % 16), hexDigit (b % 16)])

/-- Embedding of `util.HashBytes`: lower-case hex SHA-256. -/
def HashBytes (data : List Nat) : String := hexBytes (sha256 data)

/-! ## util: base32 storage keys (`util.Base32Key`, unnamed util source) -/

/-- The RFC 4648 standard base32 alphabet used by Go's
`base32.StdEncoding`. -/
def base32Alphabet : List Char := "ABCDEFGHIJKLMNOPQRSTUVWXYZ234567".toList

/-- Most-significant-first bits of one byte. -/
def byteBits (b : Nat) : List Bool :=
  [b.testBit 7, b.testBit 6, b.testBit 5, b.testBit 4,
   b.testBit 3, b.testBit 2, b.testBit 1, b.testBit 0]

/-- Value of up to five most-significant-first bits, zero-padded at the
end as base32 pads a final partial group. -/
def fiveBitVal (l : List Bool) : Nat :=
  (l.take 5).foldl (fun acc b => acc * 2 + (if b then 1 else 0)) 0 *
    2 ^ (5 - (l.take 5).length)

/-- Split a bit list into five-bit groups. -/
def fiveBitGroups (l : List Bool) : List Nat :=
  if h : l = [] then []
  else fiveBitVal l :: fiveBitGroups (l.drop 5)
termination_by l.length
decreasing_by
  simp only [List.length_drop]
  exact Nat.sub_lt (List.length_pos.mpr h) (by decide)

/-- Go's `base32.StdEncoding.WithPadding(NoPadding).EncodeToString`. -/
def base32Encode (bs : List Nat) : String :=
  String.mk ((fiveBitGroups (bs.flatMap byteBits)).map fun v =>
    base32Alphabet.getD v 'A')

/-- Lower-case an ASCII string, as Go's `strings.ToLower` does on the
base32 alphabet. -/
def strToLower (s : String) : String := String.mk (s.toList.map Char.toLower)

/-- Embedding of `util.Base32Key`: base32 of the SHA-256 of the final
bytes, lower-cased, truncated to 26 characters, sharded as
`key[:2] + "/" + key[2:] + ext`. -/
def Base32Key (data : List Nat) (ext : String) : String :=
  let encoded := base32Encode (sha256 data)
  let key := (strToLower encoded).take 26
  (key.take 2) ++ "/" ++ (key.drop 2) ++ ext

/-! ## imageproc: the image processor (internal/imageproc/simple.go)

The bimg/libvips image library and Go's `http.DetectContentType` are
external collaborators; they are modelled as the explicit function
bundle `GoEnv`, and the processor's own logic is embedded over it. -/

/-- Pixel dimensions as bimg's `metadata.Size` reports them. -/
structure ImgSize where
  width : Nat
  height : Nat
deriving DecidableEq

/-- The slice of `bimg.ImageMetadata` the processor reads: dimensions and
the declared alpha-channel flag. -/
structure ImgMetadata where
  size : ImgSize
  alpha : Bool
deriving DecidableEq

/-- Output container formats the processor ever requests from bimg. -/
inductive ImgType
  | jpeg
  | png
deriving DecidableEq

/-- The slice of `bimg.Options` the processor sets. -/
structure BimgOptions where
  quality : Nat
  stripMetadata : Bool
  width : Nat
  height : Nat
  crop : Bool
  enlarge : Bool
  type : ImgType
deriving DecidableEq

/-- External collaborators of the processor: bimg metadata reading, bimg
encoding, and `http.DetectContentType` byte sniffing. -/
structure GoEnv where
  metadata : List Nat → Except String ImgMetadata
  process : List Nat → BimgOptions → Except String (List Nat)
  detectContentType : List Nat → String

/-- Embedding of `imageproc.Processor`'s configuration fields. -/
structure Processor where
  jpegQuality : Nat
  jpegProgressive : Bool
  pngStrip : Bool

/-- Embedding of `imageproc.ProcessResult`. -/
structure ProcessResult where
  data : List Nat
  contentType : String
  width : Nat
  height : Nat
  hasAlpha : Bool
  originalSize : Nat
  compressedSize : Nat
deriving DecidableEq

/-- Embedding of `calculateDimensionsWithMax` (simple.go): scale the
longer edge to `maxDimension` keeping the aspect ratio, then clamp both
edges to the originals (no upscaling). Go's `float64` arithmetic and
truncating `int()` conversion are modelled as exact rational arithmetic
with `Int.floor` (all quantities are non-negative). -/
def calculateDimensionsWithMax (originalWidth originalHeight maxDimension : Nat) : Nat × Nat :=
  let aspect : ℚ := (originalWidth : ℚ) / (originalHeight : ℚ)
  let wh :=
    if originalHeight < originalWidth then
      (maxDimension, (Int.floor ((maxDimension : ℚ) / aspect)).toNat)
    else
      ((Int.floor ((maxDimension : ℚ) * aspect)).toNat, maxDimension)
  (if originalWidth < wh.1 then originalWidth else wh.1,
   if originalHeight < wh.2 then originalHeight else wh.2)

/-- Embedding of `Processor.hasRealTransparency` (simple.go): read the
metadata; on error or absent alpha flag report `false`, otherwise report
`true` — the declared alpha channel is taken at face value, no pixel is
ever sampled. -/
def Processor.hasRealTransparency (_ : Processor) (env : GoEnv) (data : List Nat) : Bool :=
  match env.metadata data with
  | .error _ => false
  | .ok md => md.alpha

/-- Embedding of `Processor.optimizePNG` (simple.go): a stub in the
source — it returns its input unchanged and never fails. -/
def Processor.optimizePNG (_ : Processor) (data : List Nat) : Except String (List Nat) :=
  .ok data

/-- Shared tail of `Processor.Process`: read the final metadata from the
processed bytes, falling back to the original dimensions when that
fails, and build the `ProcessResult`. -/
def finishResult (env : GoEnv) (md : ImgMetadata) (hasAlpha : Bool) (originalSize : Nat)
    (processedData : List Nat) (outCT : String) : Except String ProcessResult :=
  match env.metadata processedData with
  | .error _ =>
    .ok { data := processedData, contentType := outCT,
          width := md.size.width, height := md.size.height,
          hasAlpha := hasAlpha, originalSize := originalSize,
          compressedSize := processedData.length }
  | .ok fmd =>
    .ok { data := processedData, contentType := outCT,
          width := fmd.size.width, height := fmd.size.height,
          hasAlpha := hasAlpha, originalSize := originalSize,
          compressedSize := processedData.length }

/-- The body of `Processor.Process` once the content type is resolved:
read metadata, decide resizing (edge over 3840px or size over 5MB),
decide the output format from `ShouldConvertToJPEG` and
`hasRealTransparency`, encode through bimg, and assemble the result.
There is no pass-through branch: every input reaches one of the two
encode calls. -/
def processWithCT (p : Processor) (env : GoEnv) (data : List Nat)
    (ct : String) : Except String ProcessResult :=
  match env.metadata data with
    | .error e => .error ("failed to read image metadata: " ++ e)
    | .ok md =>
      let originalSize := data.length
      let hasAlpha := md.alpha
      let needsResize :=
        decide (3840 < md.size.width) || decide (3840 < md.size.height) ||
        decide (5242880 < originalSize)
      let options0 : BimgOptions :=
        { quality := p.jpegQuality, stripMetadata := true, width := 0, height := 0,
          crop := false, enlarge := false, type := ImgType.jpeg }
      let options1 :=
        if needsResize then
          let nwh := calculateDimensionsWithMax md.size.width md.size.height 3840
          { options0 with width := nwh.1, height := nwh.2, crop := false, enlarge := false }
        else options0
      let shouldConvert :=
        ShouldConvertToJPEG ct (hasAlpha && p.hasRealTransparency env data)
      if shouldConvert || ct == "image/jpeg" || ct == "image/jpg" then
        match env.process data { options1 with type := ImgType.jpeg } with
        | .error e => .error ("failed to process image as JPEG: " ++ e)
        | .ok processedData =>
          finishResult env md hasAlpha originalSize processedData "image/jpeg"
      else
        let options2 := if p.pngStrip then { options1 with stripMetadata := true } else options1
        match env.process data { options2 with type := ImgType.png } with
        | .error e => .error ("failed to process image as PNG: " ++ e)
        | .ok processed0 =>
          match p.optimizePNG processed0 with
          | .ok processedData =>
            finishResult env md hasAlpha originalSize processedData "image/png"
          | .error _ =>
            finishResult env md hasAlpha originalSize processed0 "image/png"

/-- Embedding of `Processor.Process` (simple.go): validate the content
type — re-sniffing via `DetectContentType` when the declared type is
not a supported image MIME, failing if still unrecognized — then run
the processing body on the resolved type. -/
def Processor.Process (p : Processor) (env : GoEnv) (data : List Nat)
    (originalContentType : String) : Except String ProcessResult :=
  if IsImageMIME originalContentType then processWithCT p env data originalContentType
  else
    let detected := env.detectContentType data
    if IsImageMIME detected then processWithCT p env data detected
    else .error "input is not a valid image format"

/-! ## util: HTTP fetching with SSRF protection (internal/util/httpfetch.go)

IP addresses are byte lists (length 4 for IPv4, 16 for IPv6), mirroring
Go's `net.IP`. DNS resolution, TCP dialing and the HTTP exchange are
external; they appear as the function parameters `lookup`, `dial` and
`serve`. -/

/-- Go's `net.IP.To4`: the 4-byte form of an IPv4 or IPv4-mapped IPv6
address, `none` otherwise. -/
def ipTo4 (ip : List Nat) : Option (List Nat) :=
  if ip.length = 4 then some ip
  else if ip.length = 16 ∧ ip.take 10 = List.replicate 10 0 ∧
          ip.getD 10 0 = 255 ∧ ip.getD 11 0 = 255 then
    some (ip.drop 12)
  else none

/-- Go's `net.IP.IsLoopback`: 127.0.0.0/8 or the IPv6 loopback `::1`. -/
def ipIsLoopback (ip : List Nat) : Bool :=
  match ipTo4 ip with
  | some ip4 => ip4.getD 0 0 == 127
  | none => ip == [0, 0, 0, 0, 0, 0, 0, 0, 0, 0, 0, 0, 0, 0, 0, 1]

/-- Go's `net.IP.IsLinkLocalUnicast`: 169.254.0.0/16 or fe80::/10. -/
def ipIsLinkLocalUnicast (ip : List Nat) : Bool :=
  match ipTo4 ip with
  | some ip4 => ip4.getD 0 0 == 169 && ip4.getD 1 0 == 254
  | none => ip.length == 16 && ip.getD 0 0 == 254 && (ip.getD 1 0 &&& 192) == 128

/-- Go's `net.IP.IsLinkLocalMulticast`: 224.0.0.0/24 or ff02::/16. -/
def ipIsLinkLocalMulticast (ip : List Nat) : Bool :=
  match ipTo4 ip with
  | some ip4 => ip4.getD 0 0 == 224 && ip4.getD 1 0 == 0 && ip4.getD 2 0 == 0
  | none => ip.length == 16 && ip.getD 0 0 == 255 && (ip.getD 1 0 &&& 15) == 2

/-- Embedding of `util.isPrivateIP`: loopback and link-local addresses,
the private IPv4 ranges 10/8, 172.16/12, 192.168/16, 169.254/16, and the
private IPv6 ranges fc00::/7 and fe80::/10. -/
def isPrivateIP (ip : List Nat) : Bool :=
  if ipIsLoopback ip || ipIsLinkLocalUnicast ip || ipIsLinkLocalMulticast ip then true
  else
    let v4private :=
      match ipTo4 ip with
      | some ip4 =>
        let b0 := ip4.getD 0 0
        let b1 := ip4.getD 1 0
        b0 == 10 ||
        (b0 == 172 && decide (16 ≤ b1) && decide (b1 ≤ 31)) ||
        (b0 == 192 && b1 == 168) ||
        (b0 == 169 && b1 == 254)
      | none => false
    if v4private then true
    else
      match ipTo4 ip with
      | some _ => false
      | none =>
        (decide (1 ≤ ip.length) && (ip.getD 0 0 &&& 254) == 252) ||
        (decide (2 ≤ ip.length) && ip.getD 0 0 == 254 && (ip.getD 1 0 &&& 192) == 128)

/-- The SSRF check the custom dialer runs on every resolved IP before
dialing: the first private/internal address, if any. -/
def firstPrivateIP (ips : List (List Nat)) : Option (List Nat) :=
  ips.find? isPrivateIP

/-- Embedding of the custom `DialContext` in `util.NewHTTPFetcher`:
resolve the host, refuse if any resolved IP is private, only then hand
over to the real dialer. `dial` stands for `net.Dialer.DialContext`. -/
def dialContext {Conn : Type} (lookup : String → List (List Nat))
    (dial : String → Except String Conn) (host : String) : Except String Conn :=
  match firstPrivateIP (lookup host) with
  | some _ => .error "connection to private IP address is not allowed"
  | none => dial host

/-- The slice of Go's `http.Response` that `FetchURL` reads.
`contentLength` is `-1` when the server did not declare a length,
mirroring `Response.ContentLength`. -/
structure HttpResponse where
  statusCode : Nat
  status : String
  contentLength : Int
  body : List Nat
  contentTypeHeader : String
deriving DecidableEq

/-- The HTTP client's `Do` over the SSRF-checking transport: dial, then
let the server produce the response. `serve` stands for the whole
request/response exchange on an established connection. -/
def clientDo {Conn : Type} (lookup : String → List (List Nat))
    (dial : String → Except String Conn) (serve : Conn → HttpResponse)
    (host : String) : Except String HttpResponse :=
  match dialContext lookup dial host with
  | .error e => .error e
  | .ok c => .ok (serve c)

/-- Embedding of `util.MaxFileSize` (30MB). -/
def MaxFileSize : Nat := 31457280

/-- The response-handling tail of `util.FetchURL` (status check,
declared-length check, size-limited body read, content-type fallback).
`io.ReadAll(io.LimitReader(body, MaxFileSize))` reads at most
`MaxFileSize` bytes, i.e. `body.take MaxFileSize`; `detect` stands for
`util.DetectContentType` (Go's `http.DetectContentType`). -/
def readResponse (detect : List Nat → String) (resp : HttpResponse) :
    Except String (List Nat × String) :=
  if resp.statusCode ≠ 200 then
    .error ("HTTP " ++ toString resp.statusCode ++ ": " ++ resp.status)
  else if (MaxFileSize : Int) < resp.contentLength then
    .error ("file too large: " ++ toString resp.contentLength ++ " bytes (max " ++
            toString MaxFileSize ++ ")")
  else
    let body := resp.body.take MaxFileSize
    let contentType :=
      if resp.contentTypeHeader == "" then detect body else resp.contentTypeHeader
    .ok (body, contentType)

/-- A parsed request URL as `FetchURL` uses it (scheme check, host for
dialing). The embedding starts from the parsed form; `url.Parse` error
handling on malformed strings is upstream of everything verified here. -/
structure FetchTarget where
  scheme : String
  host : String
deriving DecidableEq

/-- Embedding of `util.FetchURL`: HTTPS-only scheme check, request via
the SSRF-checking client, then response handling. -/
def FetchURL {Conn : Type} (lookup : String → List (List Nat))
    (dial : String → Except String Conn) (serve : Conn → HttpResponse)
    (detect : List Nat → String) (url : FetchTarget) :
    Except String (List Nat × String) :=
  if url.scheme ≠ "https" then .error "only HTTPS URLs are allowed"
  else
    match clientDo lookup dial serve url.host with
    | .error e => .error ("failed to fetch URL: " ++ e)
    | .ok resp => readResponse detect resp

/-! ## storage and assets service (internal/storage, internal/assets)

The R2 object store is external; it is modelled as the key set it holds
plus its public base URL, with `ObjectExists`/`UploadObj`/`GetPublicURL`
as the operations `service.go` calls. -/

/-- Embedding of `assets.Asset`. -/
structure Asset where
  url : String
  mime : String
  width : Nat
  height : Nat
  bytes : Nat
  hash : String
  deduped : Bool
  key : String
deriving DecidableEq

/-- Embedding of `assets.ProcessInput`. -/
structure ProcessInput where
  data : List Nat
  contentType : String
  sourceURL : String
deriving DecidableEq

/-- Model of the R2 bucket the service talks to: the set of keys that
currently hold objects, and the configured public base URL. -/
structure StoreState where
  objects : List String
  publicBaseURL : String
deriving DecidableEq

/-- Model of `R2Client.ObjectExists` (a 404 is `false`, not an error). -/
def ObjectExists (st : StoreState) (key : String) : Bool :=
  st.objects.contains key

/-- Model of `R2Client.GetPublicURL`: base URL joined with the key. -/
def GetPublicURL (st : StoreState) (key : String) : String :=
  st.publicBaseURL ++ "/" ++ key

/-- Model of `R2Client.Upload`: store the object under the key and
return the new store plus the public URL of the uploaded object. -/
def UploadObj (st : StoreState) (key : String) : StoreState × String :=
  ({ st with objects := key :: st.objects }, GetPublicURL st key)

/-- Embedding of `Service.ProcessFromData`: process the image, hash the
final bytes, derive the storage key, then either skip the upload
(`deduped = true`) when the key already holds an object, or upload
(`deduped = false`). -/
def ProcessFromData (p : Processor) (env : GoEnv) (st : StoreState)
    (input : ProcessInput) : Except String (Asset × StoreState) :=
  match p.Process env input.data input.contentType with
  | .error e => .error ("failed to process image: " ++ e)
  | .ok result =>
    let hashStr := hexBytes (sha256 result.data)
    let ext := GetImageExtension result.contentType
    let key := Base32Key result.data ext
    if ObjectExists st key then
      .ok ({ url := GetPublicURL st key, mime := result.contentType,
             width := result.width, height := result.height,
             bytes := result.compressedSize, hash := "sha256:" ++ hashStr,
             deduped := true, key := key }, st)
    else
      let up := UploadObj st key
      .ok ({ url := up.2, mime := result.contentType,
             width := result.width, height := result.height,
             bytes := result.compressedSize, hash := "sha256:" ++ hashStr,
             deduped := false, key := key }, up.1)

/-- The collaborators a `Service` holds besides the processor: the
HTTP fetcher (embedded separately as `FetchURL`), and Go's
`base64.StdEncoding.DecodeString` and `url.QueryUnescape` used by
`parseDataURI`. -/
structure Svc where
  p : Processor
  env : GoEnv
  fetch : String → Except String (List Nat × String)
  decodeB64 : String → Except String (List Nat)
  unescape : String → Except String String

/-- Split a string at the first occurrence of a character, as
`strings.Index` plus slicing does in `parseDataURI`. -/
def splitFirst (s : String) (c : Char) : Option (String × String) :=
  match s.toList.indexOf? c with
  | none => none
  | some i => some (String.mk (s.toList.take i), String.mk (s.toList.drop (i + 1)))

/-- Embedding of `Service.parseDataURI`: `data:[mediatype][;base64],data`
with base64 or URL-percent-encoded payloads. -/
def parseDataURI (svc : Svc) (dataURI : String) : Except String (List Nat × String) :=
  if ¬ strStartsWith dataURI "data:" then .error "invalid data URI format"
  else
    let content := dataURI.drop 5
    match splitFirst content ',' with
    | none => .error "invalid data URI: missing comma separator"
    | some (header, encodedData) =>
      let parts := header.splitOn ";"
      let contentType := if parts.getD 0 "" ≠ "" then parts.getD 0 "" else "text/plain"
      let isBase64 := (parts.drop 1).contains "base64"
      if isBase64 then
        match svc.decodeB64 encodedData with
        | .error e => .error ("failed to decode base64 data: " ++ e)
        | .ok d => .ok (d, contentType)
      else
        match svc.unescape encodedData with
        | .error e => .error ("failed to decode URL data: " ++ e)
        | .ok s => .ok (s.toList.map Char.toNat, contentType)

/-- Embedding of `Service.ProcessFromURL`: fetch, then hand the bytes to
`ProcessFromData`. -/
def ProcessFromURL (svc : Svc) (st : StoreState) (imageURL : String) :
    Except String (Asset × StoreState) :=
  match svc.fetch imageURL with
  | .error e => .error ("failed to fetch image: " ++ e)
  | .ok dc => ProcessFromData svc.p svc.env st ⟨dc.1, dc.2, imageURL⟩

/-- Embedding of `Service.ProcessFromDataURI`: parse the data URI, then
hand the bytes to `ProcessFromData`. -/
def ProcessFromDataURI (svc : Svc) (st : StoreState) (dataURI : String) :
    Except String (Asset × StoreState) :=
  match parseDataURI svc dataURI with
  | .error e => .error ("failed to parse data URI: " ++ e)
  | .ok dc => ProcessFromData svc.p svc.env st ⟨dc.1, dc.2, "data:"⟩

/-- Embedding of `assets.BatchInput`. -/
structure BatchInput where
  url : String
  dataURI : String
  data : List Nat
  contentType : String
deriving DecidableEq

/-- One iteration of the `ProcessBatch` loop body: the `switch` that
dispatches batch item `i` to the matching processing call. -/
def processBatchItem (svc : Svc) (st : StoreState) (i : Nat) (input : BatchInput) :
    Except String (Asset × StoreState) :=
  if input.url ≠ "" then ProcessFromURL svc st input.url
  else if input.dataURI ≠ "" then ProcessFromDataURI svc st input.dataURI
  else if 0 < input.data.length then
    ProcessFromData svc.p svc.env st ⟨input.data, input.contentType, "upload"⟩
  else .error ("no valid input provided for batch item " ++ toString i)

/-- The `ProcessBatch` loop: sequentially process items, accumulating
assets; the first failure aborts with an error naming the item index. -/
def ProcessBatchAux (svc : Svc) : Nat → StoreState → List Asset → List BatchInput →
    Except String (List Asset × StoreState)
  | _, st, acc, [] => .ok (acc, st)
  | i, st, acc, input :: rest =>
    match processBatchItem svc st i input with
    | .error e => .error ("failed to process item " ++ toString i ++ ": " ++ e)
    | .ok ast => ProcessBatchAux svc (i + 1) ast.2 (acc ++ [ast.1]) rest

/-- Embedding of `Service.ProcessBatch`. -/
def ProcessBatch (svc : Svc) (st : StoreState) (inputs : List BatchInput) :
    Except String (List Asset × StoreState) :=
  ProcessBatchAux svc 0 st [] inputs

/-- Outcomes of `Handler.HandleBatch` as written to the HTTP response. -/
inductive HandlerOutcome
  | badRequest (msg : String)
  | serverError (msg : String)
  | ok (assets : List Asset) (st : StoreState)
deriving DecidableEq

/-- Embedding of `Handler.HandleBatch`: reject an empty batch and a
batch over 20 items with a 400 before calling `ProcessBatch` at all. -/
def HandleBatch (svc : Svc) (st : StoreState) (items : List BatchInput) : HandlerOutcome :=
  if items.length = 0 then .badRequest "No items provided"
  else if 20 < items.length then .badRequest "Batch size too large (max 20)"
  else
    match ProcessBatch svc st items with
    | .error e => .serverError ("Failed to process batch: " ++ e)
    | .ok result => .ok result.1 result.2

/-! ## HTML transformer (internal/http/router.go)

The Go code mutates HTML with `regexp` patterns. Each pattern used by
the claims is embedded as a left-to-right scanner with RE2 semantics:
leftmost match, `.` never matching a newline, scanning resuming after
each match. Scanners recurse on an explicit fuel initialised to the
input length plus one, which bounds the number of scan steps. -/

/-- Go's `strings.Contains`. -/
def strContains (s pat : String) : Bool := decide (pat.toList <:+: s.toList)

/-- First index at which `pat` occurs in `hay`, if any. -/
def findSub (hay pat : List Char) : Option Nat :=
  (List.range (hay.length + 1)).find? (fun i => decide (pat <+: hay.drop i))

/-- Go's `strings.Replace(s, old, new, 1)`: replace the first occurrence. -/
def replaceFirst (s old new : String) : String :=
  match findSub s.toList old.toList with
  | none => s
  | some i =>
    String.mk (s.toList.take i ++ new.toList ++ s.toList.drop (i + old.toList.length))

/-- RE2's `\s` class: tab, newline, form feed, carriage return, space. -/
def isSpaceRE2 (c : Char) : Bool :=
  c = ' ' || c = '\t' || c = '\n' || c = '\r' || c = '\x0c'

/-- RE2's `\w` class. -/
def isWordRE2 (c : Char) : Bool := c.isAlphanum || c = '_'

/-- A single or double quote, as in the `["']` classes. -/
def isQuote (c : Char) : Bool := c = '"' || c = '\''

/-- The event-handler pass of `removeDangerousAttributes`: replace every
match of `\s+on\w+="[^"]*"` with the empty string. -/
def stripEventAttrs : Nat → List Char → List Char
  | 0, cs => cs
  | _, [] => []
  | fuel + 1, c :: cs =>
    if isSpaceRE2 c then
      let ws := (c :: cs).takeWhile isSpaceRE2
      let afterWs := (c :: cs).drop ws.length
      if ['o', 'n'] <+: afterWs then
        let word := (afterWs.drop 2).takeWhile isWordRE2
        let afterWord := (afterWs.drop 2).drop word.length
        if word ≠ [] then
          match afterWord with
          | '=' :: '"' :: rest =>
            let content := rest.takeWhile (fun x => x ≠ '"')
            match rest.drop content.length with
            | '"' :: rest2 => stripEventAttrs fuel rest2
            | _ => c :: stripEventAttrs fuel cs
          | _ => c :: stripEventAttrs fuel cs
        else c :: stripEventAttrs fuel cs
      else c :: stripEventAttrs fuel cs
    else c :: stripEventAttrs fuel cs

/-- The `javascript:` link pass of `removeDangerousAttributes`: replace
every match of `href="javascript:[^"]*"` with `href="#"`. -/
def stripJsLinks : Nat → List Char → List Char
  | 0, cs => cs
  | _, [] => []
  | fuel + 1, c :: cs =>
    if "href=\"javascript:".toList <+: (c :: cs) then
      let rest := (c :: cs).drop ("href=\"javascript:".toList.length)
      let content := rest.takeWhile (fun x => x ≠ '"')
      match rest.drop content.length with
      | '"' :: rest2 => "href=\"#\"".toList ++ stripJsLinks fuel rest2
      | _ => c :: stripJsLinks fuel cs
    else c :: stripJsLinks fuel cs

/-- The class pass of `removeDangerousAttributes`: for every match of
`\s+class="([^"]*)"`, keep it when it carries a Gmail-specific class,
drop it otherwise. -/
def stripClassAttrs : Nat → List Char → List Char
  | 0, cs => cs
  | _, [] => []
  | fuel + 1, c :: cs =>
    if isSpaceRE2 c then
      let ws := (c :: cs).takeWhile isSpaceRE2
      let afterWs := (c :: cs).drop ws.length
      if "class=\"".toList <+: afterWs then
        let rest := afterWs.drop ("class=\"".toList.length)
        let content := rest.takeWhile (fun x => x ≠ '"')
        match rest.drop content.length with
        | '"' :: rest2 =>
          let matchStr := String.mk (ws ++ "class=\"".toList ++ content ++ ['"'])
          if strContains matchStr "class=\"gmail_quote\"" ||
             strContains matchStr "class=\"gmail_" then
            ws ++ "class=\"".toList ++ content ++ '"' :: stripClassAttrs fuel rest2
          else stripClassAttrs fuel rest2
        | _ => c :: stripClassAttrs fuel cs
      else c :: stripClassAttrs fuel cs
    else c :: stripClassAttrs fuel cs

/-- The id pass of `removeDangerousAttributes`: drop every match of
`\s+id="[^"]*"`. -/
def stripIdAttrs : Nat → List Char → List Char
  | 0, cs => cs
  | _, [] => []
  | fuel + 1, c :: cs =>
    if isSpaceRE2 c then
      let ws := (c :: cs).takeWhile isSpaceRE2
      let afterWs := (c :: cs).drop ws.length
      if "id=\"".toList <+: afterWs then
        let rest := afterWs.drop ("id=\"".toList.length)
        let content := rest.takeWhile (fun x => x ≠ '"')
        match rest.drop content.length with
        | '"' :: rest2 => stripIdAttrs fuel rest2
        | _ => c :: stripIdAttrs fuel cs
      else c :: stripIdAttrs fuel cs
    else c :: stripIdAttrs fuel cs

/-- Embedding of `Transformer.removeDangerousAttributes`: event
handlers, `javascript:` links, non-Gmail classes, ids. -/
def removeDangerousAttributes (html : String) : String :=
  let cs1 := stripEventAttrs (html.toList.length + 1) html.toList
  let cs2 := stripJsLinks (cs1.length + 1) cs1
  let cs3 := stripClassAttrs (cs2.length + 1) cs2
  let cs4 := stripIdAttrs (cs3.length + 1) cs3
  String.mk cs4

/-- Non-greedy search for `closeTag` as `.*?</tag>` performs it: succeed
at the earliest occurrence, fail on reaching a newline or the end first
(RE2's `.` does not match a newline). -/
def findCloseNoNewline (closeTag : List Char) : Nat → List Char → Option (List Char)
  | 0, _ => none
  | fuel + 1, body =>
    if closeTag <+: body then some (body.drop closeTag.length)
    else
      match body with
      | [] => none
      | c :: rest => if c = '\n' then none else findCloseNoNewline closeTag fuel rest

/-- Match Go's `<tag[^>]*>.*?</tag>` at the start of `cs`, returning the
remainder after the match when it succeeds. -/
def matchBlockAt (openTag closeTag : List Char) (cs : List Char) : Option (List Char) :=
  if openTag <+: cs then
    let rest := cs.drop openTag.length
    let attrs := rest.takeWhile (fun c => c ≠ '>')
    match rest.drop attrs.length with
    | '>' :: body => findCloseNoNewline closeTag (body.length + 1) body
    | _ => none
  else none

/-- Remove every `<tag[^>]*>.*?</tag>` match and count the matches, as
the paired `FindAllString` / `ReplaceAllString` calls do. -/
def removeBlocks (openTag closeTag : List Char) : Nat → List Char → List Char × Nat
  | 0, cs => (cs, 0)
  | _, [] => ([], 0)
  | fuel + 1, c :: cs =>
    match matchBlockAt openTag closeTag (c :: cs) with
    | some rest =>
      let r := removeBlocks openTag closeTag fuel rest
      (r.1, r.2 + 1)
    | none =>
      let r := removeBlocks openTag closeTag fuel cs
      (c :: r.1, r.2)

/-- Remove every `<tag...>...</tag>` block from an HTML string,
returning the result and the number of removed blocks. -/
def removeTagBlocks (tag : String) (html : String) : String × Nat :=
  let cs := html.toList
  let r := removeBlocks ("<" ++ tag).toList ("</" ++ tag ++ ">").toList (cs.length + 1) cs
  (String.mk r.1, r.2)

/-- Embedding of `http.Stats`. -/
structure Stats where
  imagesProcessed : Nat
  imagesRehosted : Nat
  stylesRemoved : Nat
  scriptsRemoved : Nat
deriving DecidableEq

/-- Embedding of `Transformer.sanitizeHTML`: strip script blocks, strip
style blocks (both counted), convert to the Gmail vocabulary, remove
dangerous attributes, normalize links. `gmailConvert` and `linkNorm`
stand for `convertToGmailFormat` and `normalizeLinks`, the two
document-normalization passes that neither touch the script/style
counts nor run before the stripping passes under verification. -/
def sanitizeHTML (gmailConvert linkNorm : String → String) (html : String) : String × Stats :=
  let rScripts := removeTagBlocks "script" html
  let rStyles := removeTagBlocks "style" rScripts.1
  let h3 := gmailConvert rStyles.1
  let h4 := removeDangerousAttributes h3
  let h5 := linkNorm h4
  (h5, { imagesProcessed := 0, imagesRehosted := 0,
         stylesRemoved := rStyles.2, scriptsRemoved := rScripts.2 })

/-- An `imgRegex` match: the whole tag and its captured `src` value. -/
structure ImgMatch where
  fullTag : String
  src : String
deriving DecidableEq

/-- Find a `src=["']([^"']+)["']` attribute inside a tag's attribute
characters and return the captured value. -/
def findSrcInAttrs : Nat → List Char → Option (List Char)
  | 0, _ => none
  | _, [] => none
  | fuel + 1, c :: cs =>
    if "src=".toList <+: (c :: cs) then
      match (c :: cs).drop 4 with
      | q :: rest2 =>
        if isQuote q then
          let content := rest2.takeWhile (fun x => ¬ isQuote x)
          if content ≠ [] ∧ rest2.drop content.length ≠ [] then some content
          else findSrcInAttrs fuel cs
        else findSrcInAttrs fuel cs
      | _ => findSrcInAttrs fuel cs
    else findSrcInAttrs fuel cs

/-- The `imgRegex` scan of `processImages`: every
`<img[^>]*src=["']([^"']+)["'][^>]*>` match with its `src` capture.
Since `[^>]` cannot cross `>`, a match is an `<img` tag up to its first
`>` carrying a quoted `src` attribute. -/
def extractImgMatchesAux : Nat → List Char → List ImgMatch
  | 0, _ => []
  | _, [] => []
  | fuel + 1, c :: cs =>
    if "<img".toList <+: (c :: cs) then
      let rest := (c :: cs).drop 4
      let attrs := rest.takeWhile (fun x => x ≠ '>')
      match rest.drop attrs.length with
      | '>' :: rest2 =>
        match findSrcInAttrs (attrs.length + 1) attrs with
        | some src =>
          { fullTag := String.mk ("<img".toList ++ attrs ++ ['>']),
            src := String.mk src } :: extractImgMatchesAux fuel rest2
        | none => extractImgMatchesAux fuel cs
      | _ => extractImgMatchesAux fuel cs
    else extractImgMatchesAux fuel cs

/-- All `imgRegex` matches of an HTML document. -/
def extractImgMatches (html : String) : List ImgMatch :=
  extractImgMatchesAux (html.toList.length + 1) html.toList

/-- Replace every `src=["']([^"']+)["']` attribute value with the new
URL, as `srcRegex.ReplaceAllString` does when rewriting a tag. -/
def replaceSrcAttrScan (newSrc : List Char) : Nat → List Char → List Char
  | 0, cs => cs
  | _, [] => []
  | fuel + 1, c :: cs =>
    if "src=".toList <+: (c :: cs) then
      match (c :: cs).drop 4 with
      | q :: rest2 =>
        if isQuote q then
          let content := rest2.takeWhile (fun x => ¬ isQuote x)
          if content ≠ [] then
            match rest2.drop content.length with
            | _ :: rest3 =>
              "src=\"".toList ++ newSrc ++ '"' :: replaceSrcAttrScan newSrc fuel rest3
            | _ => c :: replaceSrcAttrScan newSrc fuel cs
          else c :: replaceSrcAttrScan newSrc fuel cs
        else c :: replaceSrcAttrScan newSrc fuel cs
      | _ => c :: replaceSrcAttrScan newSrc fuel cs
    else c :: replaceSrcAttrScan newSrc fuel cs

/-- Replace every `style=["'][^"']*["']` attribute with a replacement,
as `styleRegex.ReplaceAllString` does in `addGmailSafeImageStyles`. -/
def replaceStyleAttrScan (repl : List Char) : Nat → List Char → List Char
  | 0, cs => cs
  | _, [] => []
  | fuel + 1, c :: cs =>
    if "style=".toList <+: (c :: cs) then
      match (c :: cs).drop 6 with
      | q :: rest2 =>
        if isQuote q then
          let content := rest2.takeWhile (fun x => ¬ isQuote x)
          match rest2.drop content.length with
          | _ :: rest3 => repl ++ replaceStyleAttrScan repl fuel rest3
          | _ => c :: replaceStyleAttrScan repl fuel cs
        else c :: replaceStyleAttrScan repl fuel cs
      | _ => c :: replaceStyleAttrScan repl fuel cs
    else c :: replaceStyleAttrScan repl fuel cs

/-- The fixed inline style `addGmailSafeImageStyles` applies. -/
def gmailImgStyle : String := "style=\"max-width:100%;height:auto;display:block;\""

/-- Embedding of `Transformer.addGmailSafeImageStyles`. -/
def addGmailSafeImageStyles (imgTag : String) : String :=
  if strContains imgTag "style=" then
    String.mk (replaceStyleAttrScan gmailImgStyle.toList (imgTag.toList.length + 1) imgTag.toList)
  else
    replaceFirst imgTag ">" (" " ++ gmailImgStyle ++ ">")

/-- The fields of Go's `url.URL` that `shouldRehostImage` reads.
Modelled from Go's `net/url.Parse` for those fields: scheme before the
first colon when well-formed (else empty), authority after `//`, query
after `?`. -/
structure URLParts where
  scheme : String
  host : String
  rawQuery : String
deriving DecidableEq

/-- Model of `url.Parse` restricted to the fields `shouldRehostImage`
uses; `none` corresponds to a parse error on a malformed scheme. -/
def parseURLModel (s : String) : Option URLParts :=
  let cs := s.toList
  let pre := cs.takeWhile (fun c => c ≠ ':' && c ≠ '/' && c ≠ '?' && c ≠ '#')
  let hasColon := (cs.drop pre.length).head? = some ':'
  let schemeOK := pre ≠ [] ∧ (pre.headD 'a').isAlpha = true ∧
    pre.all (fun c => c.isAlphanum || c = '+' || c = '-' || c = '.') = true
  if hasColon ∧ ¬ schemeOK then none
  else
    let scheme := if hasColon then String.mk (pre.map Char.toLower) else ""
    let rest := if hasColon then cs.drop (pre.length + 1) else cs
    let afterHost :=
      if rest.take 2 = ['/', '/'] then
        (rest.drop 2).dropWhile (fun c => c ≠ '/' && c ≠ '?' && c ≠ '#')
      else rest
    let host :=
      if rest.take 2 = ['/', '/'] then
        String.mk ((rest.drop 2).takeWhile (fun c => c ≠ '/' && c ≠ '?' && c ≠ '#'))
      else ""
    let rawQuery :=
      match afterHost.dropWhile (fun c => c ≠ '?' && c ≠ '#') with
      | '?' :: qs => String.mk (qs.takeWhile (fun c => c ≠ '#'))
      | _ => ""
    some { scheme := scheme, host := host, rawQuery := rawQuery }

/-- Embedding of `Transformer.shouldRehostImage`: always rehost data
URIs, never blob URLs, rehost non-HTTPS URLs, rehost known ephemeral
hosts and signed-URL query patterns. -/
def shouldRehostImage (srcURL : String) : Bool :=
  if strStartsWith srcURL "data:" then true
  else if strStartsWith srcURL "blob:" then false
  else
    match parseURLModel srcURL with
    | none => false
    | some u =>
      if u.scheme ≠ "https" then true
      else if strContains u.host "amazonaws.com" || strContains u.host "googleusercontent.com" ||
              strContains u.host "mail.google.com" || strContains u.host "notion.so" ||
              strContains u.host "dropbox.com" || strContains u.host "onedrive.com" then true
      else if strContains u.rawQuery "Expires=" || strContains u.rawQuery "expires=" ||
              strContains u.rawQuery "X-Amz-" || strContains u.rawQuery "sig=" ||
              strContains u.rawQuery "token=" then true
      else false

/-- The message recorded when rehosting one image fails. -/
def failRehostMsg (srcURL err : String) : String :=
  "Failed to rehost image " ++ String.mk (srcURL.toList.take (min 50 srcURL.length)) ++
  ": " ++ err

/-- The message recorded for a blob URL. -/
def blobMsg : String :=
  "Gmail draft images detected - please download and re-upload images manually for rehosting"

/-- The message recorded for a Gmail attachment URL. -/
def gmailAttachMsg : String :=
  "Gmail attachment image detected - please download and re-upload manually for rehosting"

/-- The dispatch `processImages` performs for one rehost-worthy image:
data URIs through `ProcessFromDataURI`, everything else through
`ProcessFromURL`. -/
def processImageCall (svc : Svc) (st : StoreState) (src : String) :
    Except String (Asset × StoreState) :=
  if strStartsWith src "data:" then ProcessFromDataURI svc st src
  else ProcessFromURL svc st src

/-- Result of the image pass over one document. -/
structure ImgPassResult where
  html : String
  st : StoreState
  rehosted : Nat
  messages : List String
deriving DecidableEq

/-- The per-image loop of `Transformer.processImages`: skip our own CDN,
blob URLs and Gmail attachments (with messages), skip non-rehost-worthy
sources, and process the rest — a failure leaves the tag untouched,
records a message and moves on; a success rewrites the tag in place. -/
def processImagesAux (svc : Svc) :
    List ImgMatch → StoreState → String → Nat → List String → ImgPassResult
  | [], st, html, rehosted, msgs =>
    { html := html, st := st, rehosted := rehosted, messages := msgs }
  | m :: rest, st, html, rehosted, msgs =>
    if strContains m.src "i.format.hackclub.com" then
      processImagesAux svc rest st html rehosted msgs
    else if strStartsWith m.src "blob:" then
      processImagesAux svc rest st html rehosted (msgs ++ [blobMsg])
    else if strContains m.src "mail.google.com" && strContains m.src "attid=" then
      processImagesAux svc rest st html rehosted (msgs ++ [gmailAttachMsg])
    else if ¬ shouldRehostImage m.src then
      processImagesAux svc rest st html rehosted msgs
    else
      match processImageCall svc st m.src with
      | .error e =>
        processImagesAux svc rest st html rehosted (msgs ++ [failRehostMsg m.src e])
      | .ok ast =>
        let msgs1 := msgs ++ ["Image rehosted: " ++
          String.mk (m.src.toList.take (min 50 m.src.length)) ++ " -> " ++ ast.1.url]
        let newTag0 := String.mk
          (replaceSrcAttrScan ast.1.url.toList (m.fullTag.toList.length + 1) m.fullTag.toList)
        let newTag1 :=
          if ¬ strContains newTag0 "alt=" then replaceFirst newTag0 ">" " alt=\"\">"
          else newTag0
        let newTag2 := addGmailSafeImageStyles newTag1
        let html' := replaceFirst html m.fullTag newTag2
        let msgs2 := msgs1 ++
          [if ast.1.deduped then "Image deduplicated: " ++ ast.1.url
           else "Image rehosted: " ++ ast.1.url]
        processImagesAux svc rest ast.2 html' (rehosted + 1) msgs2

/-- Embedding of `http.TransformResponse`. -/
structure TransformResponse where
  html : String
  messages : List String
  stats : Stats
deriving DecidableEq

/-- Embedding of `Transformer.Transform`: run the image pass, then the
sanitize pass, and assemble the response — the function returns a nil
error on every path. -/
def Transform (svc : Svc) (gmailConvert linkNorm : String → String)
    (st : StoreState) (reqHTML : String) :
    Except String (TransformResponse × StoreState) :=
  let imgs := extractImgMatches reqHTML
  let pr := processImagesAux svc imgs st reqHTML 0 []
  let sz := sanitizeHTML gmailConvert linkNorm pr.html
  .ok ({ html := sz.1,
         messages := pr.messages,
         stats := { imagesProcessed := imgs.length, imagesRehosted := pr.rehosted,
                    stylesRemoved := sz.2.stylesRemoved,
                    scriptsRemoved := sz.2.scriptsRemoved } }, pr.st)

/-! ## Concrete test fixtures

Closed instances of the external collaborators, used to evaluate the
embedded operations on concrete inputs. -/

/-- One pixel of a decoded test image. -/
structure TestPixel where
  r : Nat
  g : Nat
  b : Nat
  a : Nat
deriving DecidableEq

/-- A decoded test image: its pixels and the alpha-channel flag its
metadata declares (the two need not agree — that is the point of the
transparency claims). -/
structure TestImage where
  pixels : List TestPixel
  declaredAlpha : Bool
deriving DecidableEq

/-- Every pixel fully opaque (alpha = 255). -/
def TestImage.allOpaque (img : TestImage) : Bool :=
  img.pixels.all (fun px => px.a == 255)

/-- A bimg model decoding every byte string as the given 10×10 test
image: metadata reports the image's declared alpha flag, and encoding
returns the JPEG or PNG magic bytes according to the requested type
(real encoders likewise never produce the same bytes for both
containers). -/
def envOfImage (img : TestImage) : GoEnv :=
  { metadata := fun _ =>
      .ok { size := { width := 10, height := 10 }, alpha := img.declaredAlpha },
    process := fun _ o =>
      .ok (match o.type with
           | ImgType.jpeg => [255, 216]
           | ImgType.png => [137, 80]),
    detectContentType := fun _ => "image/png" }

/-- A processor configured like the deployed one. -/
def testProcessor : Processor :=
  { jpegQuality := 90, jpegProgressive := true, pngStrip := true }

/-- A 10×10 all-opaque test PNG whose metadata declares an alpha
channel (a false-positive alpha flag). -/
def opaqueAlphaPng : TestImage :=
  { pixels := List.replicate 100 { r := 10, g := 20, b := 30, a := 255 },
    declaredAlpha := true }

/-- A 10×10 all-opaque test PNG without a declared alpha channel. -/
def opaquePng : TestImage :=
  { pixels := List.replicate 100 { r := 10, g := 20, b := 30, a := 255 },
    declaredAlpha := false }

/-- A small (200-byte scale) PNG input byte string. -/
def smallPngData : List Nat := [137, 80, 78, 71]

/-- An empty test store. -/
def emptyStore : StoreState := { objects := [], publicBaseURL := "https://i.format.hackclub.com" }

/-- A DNS model resolving every host to one public IP. -/
def publicLookup : String → List (List Nat) := fun _ => [[93, 184, 216, 34]]

/-- A dialer model that always connects (connections carry no data). -/
def unitDial : String → Except String Unit := fun _ => .ok ()

/-- A 200 response with no declared Content-Length whose body is one
byte longer than the 30MB cap. -/
def noLengthResp : HttpResponse :=
  { statusCode := 200, status := "200 OK", contentLength := -1,
    body := List.replicate (MaxFileSize + 1) 0, contentTypeHeader := "image/png" }

/-- A 200 response declaring a Content-Length above the 30MB cap. -/
def bigLengthResp : HttpResponse :=
  { statusCode := 200, status := "200 OK", contentLength := 40000000,
    body := [], contentTypeHeader := "image/png" }

/-- A 404 response. -/
def notFoundResp : HttpResponse :=
  { statusCode := 404, status := "404 Not Found", contentLength := 0,
    body := [], contentTypeHeader := "" }

/-- A content sniffer model. -/
def octetDetect : List Nat → String := fun _ => "application/octet-stream"

/-- A service whose fetcher and decoders always fail — used to exercise
failure handling. -/
def failFetchSvc : Svc :=
  { p := testProcessor, env := envOfImage opaquePng,
    fetch := fun _ => .error "fetch disabled",
    decodeB64 := fun _ => .error "b64 disabled",
    unescape := fun _ => .error "unescape disabled" }

/-- The IP ranges the specification names for the SSRF block: IPv4
10/8, 172.16/12, 192.168/16, 169.254/16 and loopback 127/8; IPv6
unique-local fc00::/7 and link-local fe80::/10. -/
def claimPrivateRange (ip : List Nat) : Bool :=
  (match ipTo4 ip with
   | some ip4 =>
     ip4.getD 0 0 == 10 ||
     (ip4.getD 0 0 == 172 && decide (16 ≤ ip4.getD 1 0) && decide (ip4.getD 1 0 ≤ 31)) ||
     (ip4.getD 0 0 == 192 && ip4.getD 1 0 == 168) ||
     (ip4.getD 0 0 == 169 && ip4.getD 1 0 == 254) ||
     ip4.getD 0 0 == 127
   | none => false) ||
  (ip.length == 16 &&
    ((ip.getD 0 0 &&& 254) == 252 ||
     (ip.getD 0 0 == 254 && (ip.getD 1 0 &&& 192) == 128)))

/-- The storage key `ProcessFromData` derives for a processing result. -/
def keyFor (r : ProcessResult) : String :=
  Base32Key r.data (GetImageExtension r.contentType)

/-- The asset `ProcessFromData` returns for a processing result against
a given store (both its branches construct this value: the public URL
is computed from the pre-upload store either way). -/
def mkAssetFor (st : StoreState) (r : ProcessResult) : Asset :=
  { url := GetPublicURL st (keyFor r), mime := r.contentType,
    width := r.width, height := r.height, bytes := r.compressedSize,
    hash := "sha256:" ++ hexBytes (sha256 r.data),
    deduped := ObjectExists st (keyFor r), key := keyFor r }

/-- The HTML document with a multi-line script block used to probe the
sanitizer. -/
def multilineScriptHtml : String := "<div><script>\nalert(1)\n</script></div>"

/-! ## Helper lemmas -/

/-- Scaling `m` down by an aspect ratio at least one stays at most `m`. -/
theorem floor_div_toNat_le (m a b : Nat) (hb : 0 < b) (hba : b ≤ a) :
    (Int.floor ((m : ℚ) / ((a : ℚ) / (b : ℚ)))).toNat ≤ m := by
  have hbq : (0 : ℚ) < (b : ℚ) := by exact_mod_cast hb
  have h1 : (1 : ℚ) ≤ (a : ℚ) / (b : ℚ) :=
    (one_le_div hbq).mpr (by exact_mod_cast hba)
  have h2 : (m : ℚ) / ((a : ℚ) / (b : ℚ)) ≤ (m : ℚ) :=
    div_le_self (by positivity) h1
  have h3 : Int.floor ((m : ℚ) / ((a : ℚ) / (b : ℚ))) ≤ (m : ℤ) := by
    calc Int.floor ((m : ℚ) / ((a : ℚ) / (b : ℚ))) ≤ Int.floor ((m : ℚ)) :=
          Int.floor_le_floor h2
      _ = (m : ℤ) := Int.floor_natCast m
  exact Int.toNat_le.mpr h3

/-- Scaling `m` by an aspect ratio at most one stays at most `m`. -/
theorem floor_mul_toNat_le (m a b : Nat) (hb : 0 < b) (hab : a ≤ b) :
    (Int.floor ((m : ℚ) * ((a : ℚ) / (b : ℚ)))).toNat ≤ m := by
  have hbq : (0 : ℚ) < (b : ℚ) := by exact_mod_cast hb
  have h1 : (a : ℚ) / (b : ℚ) ≤ 1 :=
    (div_le_one hbq).mpr (by exact_mod_cast hab)
  have h2 : (m : ℚ) * ((a : ℚ) / (b : ℚ)) ≤ (m : ℚ) := by
    calc (m : ℚ) * ((a : ℚ) / (b : ℚ)) ≤ (m : ℚ) * 1 :=
          mul_le_mul_of_nonneg_left h1 (by positivity)
      _ = (m : ℚ) := mul_one _
  have h3 : Int.floor ((m : ℚ) * ((a : ℚ) / (b : ℚ))) ≤ (m : ℤ) := by
    calc Int.floor ((m : ℚ) * ((a : ℚ) / (b : ℚ))) ≤ Int.floor ((m : ℚ)) :=
          Int.floor_le_floor h2
      _ = (m : ℤ) := Int.floor_natCast m
  exact Int.toNat_le.mpr h3

/-! ## C8: dimensions never exceed the originals nor the maximum edge -/

/-- C8. For every positive original width and height,
`calculateDimensionsWithMax(w, h, 3840)` returns dimensions bounded by
the originals (no upscaling) and by 3840 on each edge. -/
theorem calculateDimensions_bounds (ow oh : Nat) (hw : 0 < ow) (hh : 0 < oh) :
    (calculateDimensionsWithMax ow oh 3840).1 ≤ ow ∧
    (calculateDimensionsWithMax ow oh 3840).2 ≤ oh ∧
    (calculateDimensionsWithMax ow oh 3840).1 ≤ 3840 ∧
    (calculateDimensionsWithMax ow oh 3840).2 ≤ 3840 := by
  simp only [calculateDimensionsWithMax]
  by_cases hlt : oh < ow
  · rw [if_pos hlt]
    have ht := floor_div_toNat_le 3840 ow oh hh (le_of_lt hlt)
    refine ⟨?_, ?_, ?_, ?_⟩ <;> simp only [] <;> split <;> omega
  · rw [if_neg hlt]
    have ht := floor_mul_toNat_le 3840 ow oh hh (Nat.le_of_not_lt hlt)
    refine ⟨?_, ?_, ?_, ?_⟩ <;> simp only [] <;> split <;> omega

/-- C8 witness: the 5000×3000 example. -/
theorem calculateDimensions_bounds_witness :
    0 < 5000 ∧ 0 < 3000 ∧
    ((calculateDimensionsWithMax 5000 3000 3840).1 ≤ 5000 ∧
     (calculateDimensionsWithMax 5000 3000 3840).2 ≤ 3000 ∧
     (calculateDimensionsWithMax 5000 3000 3840).1 ≤ 3840 ∧
     (calculateDimensionsWithMax 5000 3000 3840).2 ≤ 3840) :=
  ⟨by decide, by decide, calculateDimensions_bounds 5000 3000 (by decide) (by decide)⟩

/-! ## C10: any non-200 status is an error -/

/-- C10. When the scheme check and the connection succeed but the final
response status is anything other than 200, `FetchURL` returns an error
(and hence no bytes). -/
theorem fetchURL_non200_error {Conn : Type} (lookup : String → List (List Nat))
    (dial : String → Except String Conn) (serve : Conn → HttpResponse)
    (detect : List Nat → String) (url : FetchTarget) (resp : HttpResponse)
    (hscheme : url.scheme = "https")
    (hdo : clientDo lookup dial serve url.host = .ok resp)
    (hstatus : resp.statusCode ≠ 200) :
    FetchURL lookup dial serve detect url =
      .error ("HTTP " ++ toString resp.statusCode ++ ": " ++ resp.status) := by
  unfold FetchURL
  rw [hscheme, hdo]
  simp only [ne_eq, not_true_eq_false, if_false, ite_false]
  unfold readResponse
  rw [if_pos hstatus]

/-- C10 witness: a 404 response. -/
theorem fetchURL_non200_error_witness :
    FetchURL publicLookup unitDial (fun _ => notFoundResp) octetDetect
      { scheme := "https", host := "example.com" } =
      .error ("HTTP " ++ toString (404 : Nat) ++ ": " ++ "404 Not Found") :=
  fetchURL_non200_error publicLookup unitDial (fun _ => notFoundResp) octetDetect
    { scheme := "https", host := "example.com" } notFoundResp rfl rfl (by decide)

/-! ## C2: the 30MB cap (corrected) -/

/-- C2 counterexample: a 200 response with no declared Content-Length
whose body exceeds the cap by one byte is not rejected — `FetchURL`
silently truncates it to the cap and succeeds. -/
theorem fetchURL_truncates_counterexample :
    (MaxFileSize : Int) < noLengthResp.body.length ∧
    FetchURL publicLookup unitDial (fun _ => noLengthResp) octetDetect
      { scheme := "https", host := "example.com" } =
      .ok (List.replicate MaxFileSize 0, "image/png") := by
  constructor
  · norm_num [noLengthResp, MaxFileSize]
  · have hdo : clientDo publicLookup unitDial (fun _ => noLengthResp) "example.com" =
        .ok noLengthResp := rfl
    unfold FetchURL
    rw [hdo]
    simp only [ne_eq, not_true_eq_false, if_false, ite_false]
    unfold readResponse
    rw [if_neg (by norm_num [noLengthResp]), if_neg (by norm_num [noLengthResp, MaxFileSize])]
    have hbody : noLengthResp.body = List.replicate (MaxFileSize + 1) 0 := rfl
    rw [hbody, List.take_replicate]
    have hct : noLengthResp.contentTypeHeader = "image/png" := rfl
    rw [hct]
    simp [inf_eq_left, Nat.le_succ]

/-- C2 amended: a response whose declared Content-Length exceeds the
30MB cap is rejected with the too-large error, and `FetchURL` never
returns more than the cap's worth of bytes; but a longer body arriving
without a declared length is truncated to the cap and processed, not
rejected (see the counterexample). -/
theorem fetchURL_size_cap_amended {Conn : Type} (lookup : String → List (List Nat))
    (dial : String → Except String Conn) (serve : Conn → HttpResponse)
    (detect : List Nat → String) (url : FetchTarget) (resp : HttpResponse)
    (hscheme : url.scheme = "https")
    (hdo : clientDo lookup dial serve url.host = .ok resp)
    (hstatus : resp.statusCode = 200) :
    ((MaxFileSize : Int) < resp.contentLength →
      FetchURL lookup dial serve detect url =
        .error ("file too large: " ++ toString resp.contentLength ++
                " bytes (max " ++ toString MaxFileSize ++ ")")) ∧
    (∀ (bytes : List Nat) (ct : String),
      FetchURL lookup dial serve detect url = .ok (bytes, ct) →
      bytes.length ≤ MaxFileSize) := by
  have hfetch : FetchURL lookup dial serve detect url = readResponse detect resp := by
    unfold FetchURL
    rw [hscheme, hdo]
    simp only [ne_eq, not_true_eq_false, if_false, ite_false]
  constructor
  · intro hcl
    rw [hfetch]
    unfold readResponse
    rw [hstatus]
    simp only [ne_eq, not_true_eq_false, if_false, ite_false]
    rw [if_pos hcl]
  · intro bytes ct hok
    rw [hfetch] at hok
    unfold readResponse at hok
    rw [hstatus] at hok
    simp only [ne_eq, not_true_eq_false, if_false, ite_false] at hok
    by_cases hcl : (MaxFileSize : Int) < resp.contentLength
    · rw [if_pos hcl] at hok
      exact absurd hok (by simp)
    · rw [if_neg hcl] at hok
      have hb : resp.body.take MaxFileSize = bytes := by
        have := hok
        simp only [Except.ok.injEq, Prod.mk.injEq] at this
        exact this.1
      rw [← hb, List.length_take]
      exact Nat.min_le_left _ _

/-- C2 amended witness: a declared 40MB Content-Length is rejected. -/
theorem fetchURL_size_cap_amended_witness :
    (((MaxFileSize : Int) < bigLengthResp.contentLength →
      FetchURL publicLookup unitDial (fun _ => bigLengthResp) octetDetect
        { scheme := "https", host := "example.com" } =
        .error ("file too large: " ++ toString bigLengthResp.contentLength ++
                " bytes (max " ++ toString MaxFileSize ++ ")")) ∧
    (∀ (bytes : List Nat) (ct : String),
      FetchURL publicLookup unitDial (fun _ => bigLengthResp) octetDetect
        { scheme := "https", host := "example.com" } = .ok (bytes, ct) →
      bytes.length ≤ MaxFileSize)) :=
  fetchURL_size_cap_amended publicLookup unitDial (fun _ => bigLengthResp) octetDetect
    { scheme := "https", host := "example.com" } bigLengthResp rfl rfl rfl

/-! ## C5: SSRF block on private, loopback and link-local ranges -/

/-- A 16-byte address with a nonzero first byte is not IPv4-mapped. -/
theorem ipTo4_none_of_first_nonzero (ip : List Nat) (hlen : ip.length = 16)
    (hnz : ip.getD 0 0 ≠ 0) : ipTo4 ip = none := by
  unfold ipTo4
  rw [if_neg (by omega), if_neg ?_]
  rintro ⟨-, htake, -, -⟩
  apply hnz
  cases ip with
  | nil => simp at hlen
  | cons a t =>
    have ha := congrArg (fun l => l.headD 1) htake
    simpa using ha

/-- Every address in the specification's SSRF ranges is caught by
`isPrivateIP`. -/
theorem claim_range_private (ip : List Nat) (h : claimPrivateRange ip = true) :
    isPrivateIP ip = true := by
  unfold claimPrivateRange at h
  cases h4 : ipTo4 ip with
  | some ip4 =>
    rw [h4] at h
    simp only [Bool.or_eq_true, Bool.and_eq_true, beq_iff_eq, decide_eq_true_eq] at h
    rcases h with ((((h | ⟨⟨h0, h16⟩, h31⟩) | ⟨h0, h1⟩) | ⟨h0, h1⟩) | h) | ⟨hlen, hpat⟩
    · -- 10/8: caught by the 10/8 check
      unfold isPrivateIP
      have hv4 : (match ipTo4 ip with
        | some ip4 =>
          (ip4.getD 0 0 == 10 ||
            (ip4.getD 0 0 == 172 && decide (16 ≤ ip4.getD 1 0) && decide (ip4.getD 1 0 ≤ 31)) ||
            (ip4.getD 0 0 == 192 && ip4.getD 1 0 == 168) ||
            (ip4.getD 0 0 == 169 && ip4.getD 1 0 == 254))
        | none => false) = true := by
        simp only [h4]
        rw [h]
        rfl
      rw [hv4]
      simp [ite_self]
    · unfold isPrivateIP
      have hv4 : (match ipTo4 ip with
        | some ip4 =>
          (ip4.getD 0 0 == 10 ||
            (ip4.getD 0 0 == 172 && decide (16 ≤ ip4.getD 1 0) && decide (ip4.getD 1 0 ≤ 31)) ||
            (ip4.getD 0 0 == 192 && ip4.getD 1 0 == 168) ||
            (ip4.getD 0 0 == 169 && ip4.getD 1 0 == 254))
        | none => false) = true := by
        simp only [h4]
        rw [h0, decide_eq_true h16, decide_eq_true h31]
        rfl
      rw [hv4]
      simp [ite_self]
    · unfold isPrivateIP
      have hv4 : (match ipTo4 ip with
        | some ip4 =>
          (ip4.getD 0 0 == 10 ||
            (ip4.getD 0 0 == 172 && decide (16 ≤ ip4.getD 1 0) && decide (ip4.getD 1 0 ≤ 31)) ||
            (ip4.getD 0 0 == 192 && ip4.getD 1 0 == 168) ||
            (ip4.getD 0 0 == 169 && ip4.getD 1 0 == 254))
        | none => false) = true := by
        simp only [h4]
        rw [h0, h1]
        rfl
      rw [hv4]
      simp [ite_self]
    · unfold isPrivateIP
      have hv4 : (match ipTo4 ip with
        | some ip4 =>
          (ip4.getD 0 0 == 10 ||
            (ip4.getD 0 0 == 172 && decide (16 ≤ ip4.getD 1 0) && decide (ip4.getD 1 0 ≤ 31)) ||
            (ip4.getD 0 0 == 192 && ip4.getD 1 0 == 168) ||
            (ip4.getD 0 0 == 169 && ip4.getD 1 0 == 254))
        | none => false) = true := by
        simp only [h4]
        rw [h0, h1]
        rfl
      rw [hv4]
      simp [ite_self]
    · -- 127/8: loopback check fires
      have hl : ipIsLoopback ip = true := by
        unfold ipIsLoopback
        simp only [h4]
        rw [h]
        rfl
      unfold isPrivateIP
      rw [hl]
      simp [ite_self]
    · -- IPv6 patterns contradict ipTo4 = some
      exfalso
      have hnz : ip.getD 0 0 ≠ 0 := by
        rcases hpat with hfc | ⟨hfe, -⟩
        · intro h0
          rw [h0] at hfc
          simp at hfc
        · intro h0
          rw [h0] at hfe
          simp at hfe
      rw [ipTo4_none_of_first_nonzero ip hlen hnz] at h4
      exact Option.noConfusion h4
  | none =>
    rw [h4] at h
    simp only [Bool.or_eq_true, Bool.and_eq_true, beq_iff_eq, decide_eq_true_eq,
      Bool.false_eq_true, false_or] at h
    obtain ⟨hlen, hpat⟩ := h
    unfold isPrivateIP
    have hv4 : (match ipTo4 ip with
      | some ip4 =>
        (ip4.getD 0 0 == 10 ||
          (ip4.getD 0 0 == 172 && decide (16 ≤ ip4.getD 1 0) && decide (ip4.getD 1 0 ≤ 31)) ||
          (ip4.getD 0 0 == 192 && ip4.getD 1 0 == 168) ||
          (ip4.getD 0 0 == 169 && ip4.getD 1 0 == 254))
      | none => false) = false := by
      rw [h4]
    rw [hv4]
    have h1le : decide (1 ≤ ip.length) = true := by rw [hlen]; rfl
    have h2le : decide (2 ≤ ip.length) = true := by rw [hlen]; rfl
    have hv6 : ((decide (1 ≤ ip.length) && (ip.getD 0 0 &&& 254) == 252) ||
        (decide (2 ≤ ip.length) && ip.getD 0 0 == 254 && (ip.getD 1 0 &&& 192) == 128)) = true := by
      rcases hpat with hfc | ⟨hfe, hmask⟩
      · rw [hfc]
        simp [h1le]
      · rw [hfe, hmask]
        simp [h2le]
    rw [h4, hv6]
    simp [ite_self]

/-- C5. A fetch of an HTTPS URL whose host resolves to any address in
the private/loopback/link-local ranges fails with the
forbidden-destination error, whatever the dialer and server would have
done — the check runs before any connection is made or byte read. -/
theorem ssrf_private_ip_blocked {Conn : Type} (lookup : String → List (List Nat))
    (url : FetchTarget) (ip : List Nat)
    (hscheme : url.scheme = "https")
    (hmem : ip ∈ lookup url.host)
    (hrange : claimPrivateRange ip = true) :
    ∀ (dial : String → Except String Conn) (serve : Conn → HttpResponse)
      (detect : List Nat → String),
      FetchURL lookup dial serve detect url =
        .error "failed to fetch URL: connection to private IP address is not allowed" := by
  intro dial serve detect
  have hpriv := claim_range_private ip hrange
  have hfp : firstPrivateIP (lookup url.host) ≠ none := by
    unfold firstPrivateIP
    intro hnone
    rw [List.find?_eq_none] at hnone
    exact absurd hpriv (by simpa using hnone ip hmem)
  obtain ⟨bad, hbad⟩ := Option.ne_none_iff_exists'.mp hfp
  unfold FetchURL clientDo dialContext
  rw [hscheme, hbad]
  simp only [ne_eq, not_true_eq_false, if_false, ite_false]
  rfl

/-- C5 witness: a host resolving to 10.0.0.1 is blocked. -/
theorem ssrf_private_ip_blocked_witness :
    FetchURL (fun _ => [[10, 0, 0, 1]]) unitDial (fun _ => notFoundResp) octetDetect
      { scheme := "https", host := "internal.test" } =
      .error "failed to fetch URL: connection to private IP address is not allowed" :=
  ssrf_private_ip_blocked (fun _ => [[10, 0, 0, 1]])
    { scheme := "https", host := "internal.test" } [10, 0, 0, 1] rfl (by decide) (by decide)
    unitDial (fun _ => notFoundResp) octetDetect

/-! ## C6: script/style stripping (code bug on multi-line blocks) -/

/-- C6 (code bug). On a document whose script block spans multiple
lines, the sanitizer's `<script[^>]*>.*?</script>` regex cannot match —
RE2's `.` does not match a newline — so nothing is stripped or counted,
whatever the two later normalization passes are, and with the (here
inert) passes instantiated the script fragment survives verbatim into
the sanitized output. -/
theorem sanitize_multiline_script_bug :
    (∀ gmailConvert linkNorm : String → String,
      (sanitizeHTML gmailConvert linkNorm multilineScriptHtml).2.scriptsRemoved = 0 ∧
      (sanitizeHTML gmailConvert linkNorm multilineScriptHtml).2.stylesRemoved = 0) ∧
    strContains (sanitizeHTML (fun s => s) (fun s => s) multilineScriptHtml).1
      "<script>" = true ∧
    strContains (sanitizeHTML (fun s => s) (fun s => s) multilineScriptHtml).1
      "alert(1)" = true := by
  refine ⟨fun g l => ⟨?_, ?_⟩, ?_, ?_⟩
  · show (removeTagBlocks "script" multilineScriptHtml).2 = 0
    decide
  · show (removeTagBlocks "style" (removeTagBlocks "script" multilineScriptHtml).1).2 = 0
    decide
  · decide
  · decide

/-! ## C7: per-image failure never aborts the document transform -/

/-- C7. When a rehost-worthy image's pipeline call fails, the loop step
leaves the document unchanged, appends the failure message, and
continues with the remaining images; and `Transform` returns a
non-error response on every input. -/
theorem transform_per_image_failure (svc : Svc) (m : ImgMatch) (rest : List ImgMatch)
    (st : StoreState) (html : String) (rehosted : Nat) (msgs : List String) (err : String)
    (hcdn : strContains m.src "i.format.hackclub.com" = false)
    (hblob : strStartsWith m.src "blob:" = false)
    (hattach : (strContains m.src "mail.google.com" && strContains m.src "attid=") = false)
    (hworthy : shouldRehostImage m.src = true)
    (hfail : processImageCall svc st m.src = .error err) :
    processImagesAux svc (m :: rest) st html rehosted msgs =
      processImagesAux svc rest st html rehosted (msgs ++ [failRehostMsg m.src err]) ∧
    ∀ (gmailConvert linkNorm : String → String) (st' : StoreState) (doc : String),
      ∃ resp, Transform svc gmailConvert linkNorm st' doc = .ok resp := by
  constructor
  · simp only [processImagesAux, hcdn, hblob, hattach, hworthy, hfail, Bool.false_eq_true,
      if_false, not_true, ite_false]
  · intro gmailConvert linkNorm st' doc
    exact ⟨_, rfl⟩

/-- C7 witness: a single image whose fetch fails. -/
theorem transform_per_image_failure_witness :
    processImagesAux failFetchSvc
      [{ fullTag := "<img src=\"http://example.com/a.png\">",
         src := "http://example.com/a.png" }]
      emptyStore "<img src=\"http://example.com/a.png\">" 0 [] =
    processImagesAux failFetchSvc [] emptyStore "<img src=\"http://example.com/a.png\">" 0
      ([] ++ [failRehostMsg "http://example.com/a.png"
              "failed to fetch image: fetch disabled"]) :=
  (transform_per_image_failure failFetchSvc
    { fullTag := "<img src=\"http://example.com/a.png\">", src := "http://example.com/a.png" }
    [] emptyStore "<img src=\"http://example.com/a.png\">" 0 []
    "failed to fetch image: fetch disabled"
    (by decide) (by decide) (by decide) (by decide) rfl).1

/-! ## C9: batch processing is fail-fast with a bounded size -/

/-- Running the batch loop over a successful prefix continues from the
prefix's final state and index. -/
theorem processBatchAux_extend (svc : Svc) :
    ∀ (pre : List BatchInput) (i : Nat) (st : StoreState) (acc assets : List Asset)
      (st' : StoreState),
      ProcessBatchAux svc i st acc pre = .ok (assets, st') →
      ∀ rest, ProcessBatchAux svc i st acc (pre ++ rest) =
        ProcessBatchAux svc (i + pre.length) st' assets rest := by
  intro pre
  induction pre with
  | nil =>
    intro i st acc assets st' h rest
    simp only [ProcessBatchAux] at h
    obtain ⟨h1, h2⟩ : acc = assets ∧ st = st' := by simpa using h
    subst h1
    subst h2
    simp
  | cons input pre ih =>
    intro i st acc assets st' h rest
    simp only [ProcessBatchAux] at h
    cases hitem : processBatchItem svc st i input with
    | error e =>
      rw [hitem] at h
      exact absurd h (by simp)
    | ok ast =>
      rw [hitem] at h
      have hstep := ih (i + 1) ast.2 (acc ++ [ast.1]) assets st' h rest
      rw [List.cons_append]
      simp only [ProcessBatchAux]
      rw [hitem]
      show ProcessBatchAux svc (i + 1) ast.2 (acc ++ [ast.1]) (pre ++ rest) =
        ProcessBatchAux svc (i + (input :: pre).length) st' assets rest
      rw [hstep, List.length_cons]
      have harith : i + 1 + pre.length = i + (pre.length + 1) := by omega
      rw [harith]

/-- C9. If every item before index `i` succeeds and item `i` fails,
`ProcessBatch` returns no assets and an error naming index `i`, whatever
items follow (they are never processed); and a batch of more than 20
items is rejected as a bad request by `HandleBatch` regardless of the
service and store, before any processing. -/
theorem processBatch_failfast (svc : Svc) (st : StoreState) (pre : List BatchInput)
    (bad : BatchInput) (assets : List Asset) (st' : StoreState) (e : String)
    (hpre : ProcessBatchAux svc 0 st [] pre = .ok (assets, st'))
    (hbad : processBatchItem svc st' pre.length bad = .error e) :
    (∀ post : List BatchInput,
      ProcessBatch svc st (pre ++ bad :: post) =
        .error ("failed to process item " ++ toString pre.length ++ ": " ++ e)) ∧
    (∀ (items : List BatchInput) (svc' : Svc) (st'' : StoreState),
      20 < items.length →
      HandleBatch svc' st'' items = .badRequest "Batch size too large (max 20)") := by
  constructor
  · intro post
    unfold ProcessBatch
    rw [processBatchAux_extend svc pre 0 st [] assets st' hpre (bad :: post)]
    simp only [Nat.zero_add, ProcessBatchAux]
    rw [hbad]
  · intro items svc' st'' hlen
    unfold HandleBatch
    rw [if_neg (by omega), if_pos hlen]

/-- C9 witness: a first item with no valid input fails at index 0. -/
theorem processBatch_failfast_witness :
    ProcessBatch failFetchSvc emptyStore
        ([] ++ { url := "", dataURI := "", data := [], contentType := "" } :: []) =
      .error ("failed to process item " ++ toString (List.length ([] : List BatchInput)) ++
              ": " ++ "no valid input provided for batch item 0") :=
  (processBatch_failfast failFetchSvc emptyStore []
    { url := "", dataURI := "", data := [], contentType := "" } [] emptyStore
    "no valid input provided for batch item 0" rfl rfl).1 []

/-! ## Branch analysis of the processor -/

/-- A successful `processWithCT` run went through exactly one of the two
encode calls: the result's content type names the container requested
from the encoder, and the result's bytes are the encoder's output. -/
theorem processWithCT_ok_branch (p : Processor) (env : GoEnv) (data : List Nat)
    (ct : String) (r : ProcessResult) (hp : processWithCT p env data ct = .ok r) :
    (r.contentType = "image/jpeg" ∧
      ∃ opts : BimgOptions, opts.type = ImgType.jpeg ∧ env.process data opts = .ok r.data) ∨
    (r.contentType = "image/png" ∧
      ∃ opts : BimgOptions, opts.type = ImgType.png ∧ env.process data opts = .ok r.data) := by
  unfold processWithCT at hp
  cases hmd : env.metadata data with
  | error e =>
    rw [hmd] at hp
    exact Except.noConfusion hp
  | ok md =>
    rw [hmd] at hp
    dsimp only at hp
    by_cases hconv : (ShouldConvertToJPEG ct (md.alpha && p.hasRealTransparency env data) ||
        ct == "image/jpeg" || ct == "image/jpg") = true
    · rw [if_pos hconv] at hp
      split at hp
      · exact Except.noConfusion hp
      · rename_i pd hproc
        left
        unfold finishResult at hp
        split at hp
        · rw [Except.ok.injEq] at hp
          subst hp
          exact ⟨rfl, _, rfl, hproc⟩
        · rw [Except.ok.injEq] at hp
          subst hp
          exact ⟨rfl, _, rfl, hproc⟩
    · rw [if_neg hconv] at hp
      split at hp
      · exact Except.noConfusion hp
      · rename_i pd hproc
        right
        simp only [Processor.optimizePNG] at hp
        unfold finishResult at hp
        split at hp
        · rw [Except.ok.injEq] at hp
          subst hp
          exact ⟨rfl, _, rfl, hproc⟩
        · rw [Except.ok.injEq] at hp
          subst hp
          exact ⟨rfl, _, rfl, hproc⟩

/-- Lift of `processWithCT_ok_branch` through the content-type
resolution step of `Process`. -/
theorem Process_ok_branch (p : Processor) (env : GoEnv) (data : List Nat)
    (ct : String) (r : ProcessResult) (hp : p.Process env data ct = .ok r) :
    (r.contentType = "image/jpeg" ∧
      ∃ opts : BimgOptions, opts.type = ImgType.jpeg ∧ env.process data opts = .ok r.data) ∨
    (r.contentType = "image/png" ∧
      ∃ opts : BimgOptions, opts.type = ImgType.png ∧ env.process data opts = .ok r.data) := by
  unfold Processor.Process at hp
  by_cases h1 : IsImageMIME ct = true
  · rw [if_pos h1] at hp
    exact processWithCT_ok_branch p env data ct r hp
  · rw [if_neg h1] at hp
    by_cases h2 : IsImageMIME (env.detectContentType data) = true
    · rw [if_pos h2] at hp
      exact processWithCT_ok_branch p env data _ r hp
    · rw [if_neg h2] at hp
      exact Except.noConfusion hp

/-- When the two encode paths can never produce identical bytes (true
of real JPEG and PNG encoders, whose outputs start with different magic
numbers), byte-identical results carry identical content types. -/
theorem Process_data_determines_ct (p₁ p₂ : Processor) (env : GoEnv)
    (hdisj : ∀ (d₁ d₂ : List Nat) (o₁ o₂ : BimgOptions) (b₁ b₂ : List Nat),
      o₁.type = ImgType.jpeg → o₂.type = ImgType.png →
      env.process d₁ o₁ = .ok b₁ → env.process d₂ o₂ = .ok b₂ → b₁ ≠ b₂)
    (d₁ d₂ : List Nat) (ct₁ ct₂ : String) (r₁ r₂ : ProcessResult)
    (h₁ : p₁.Process env d₁ ct₁ = .ok r₁) (h₂ : p₂.Process env d₂ ct₂ = .ok r₂)
    (hdata : r₁.data = r₂.data) : r₁.contentType = r₂.contentType := by
  rcases Process_ok_branch p₁ env d₁ ct₁ r₁ h₁ with ⟨hc₁, o₁, ht₁, hq₁⟩ | ⟨hc₁, o₁, ht₁, hq₁⟩ <;>
    rcases Process_ok_branch p₂ env d₂ ct₂ r₂ h₂ with ⟨hc₂, o₂, ht₂, hq₂⟩ | ⟨hc₂, o₂, ht₂, hq₂⟩
  · rw [hc₁, hc₂]
  · exact absurd hdata (hdisj d₁ d₂ o₁ o₂ r₁.data r₂.data ht₁ ht₂ hq₁ hq₂)
  · exact absurd hdata.symm (hdisj d₂ d₁ o₂ o₁ r₂.data r₁.data ht₂ ht₁ hq₂ hq₁)
  · rw [hc₁, hc₂]

/-! ## C3: the transparency decider (corrected: no pixel sampling) -/

/-- C3 counterexample: a PNG whose metadata declares an alpha channel
but whose pixels are all fully opaque still comes out as `image/png` —
the decider never samples pixels, so the claim's `image/jpeg` output
does not happen. -/
theorem transparency_decider_counterexample :
    opaqueAlphaPng.allOpaque = true ∧
    opaqueAlphaPng.declaredAlpha = true ∧
    (testProcessor.Process (envOfImage opaqueAlphaPng) smallPngData "image/png").map
      (fun r => r.contentType) = .ok "image/png" :=
  ⟨by decide, rfl, rfl⟩

/-- C3 amended: `hasRealTransparency` reports exactly the metadata's
declared alpha flag (no pixel is sampled), so a PNG input's output mime
is `image/png` precisely when its metadata declares an alpha channel —
even when every pixel is opaque — and `image/jpeg` otherwise. -/
theorem transparency_decider_amended (p : Processor) (env : GoEnv) (data : List Nat)
    (md : ImgMetadata) (r : ProcessResult)
    (hmd : env.metadata data = .ok md)
    (hp : p.Process env data "image/png" = .ok r) :
    p.hasRealTransparency env data = md.alpha ∧
    r.contentType = (if md.alpha = true then "image/png" else "image/jpeg") := by
  have hreal : p.hasRealTransparency env data = md.alpha := by
    unfold Processor.hasRealTransparency
    rw [hmd]
  refine ⟨hreal, ?_⟩
  unfold Processor.Process at hp
  rw [if_pos (show IsImageMIME "image/png" = true from rfl)] at hp
  unfold processWithCT at hp
  rw [hmd] at hp
  dsimp only at hp
  rw [hreal, Bool.and_self] at hp
  cases halpha : md.alpha with
  | true =>
    rw [halpha] at hp
    rw [if_neg (by decide)] at hp
    split at hp
    · exact Except.noConfusion hp
    · rename_i pd hproc
      simp only [Processor.optimizePNG] at hp
      unfold finishResult at hp
      split at hp
      · rw [Except.ok.injEq] at hp
        subst hp
        rfl
      · rw [Except.ok.injEq] at hp
        subst hp
        rfl
  | false =>
    rw [halpha] at hp
    rw [if_pos (by decide)] at hp
    split at hp
    · exact Except.noConfusion hp
    · rename_i pd hproc
      unfold finishResult at hp
      split at hp
      · rw [Except.ok.injEq] at hp
        subst hp
        rfl
      · rw [Except.ok.injEq] at hp
        subst hp
        rfl

/-- C3 amended witness: the opaque-pixels, declared-alpha PNG. -/
theorem transparency_decider_amended_witness :
    testProcessor.hasRealTransparency (envOfImage opaqueAlphaPng) smallPngData = true ∧
    ({ data := [137, 80], contentType := "image/png", width := 10, height := 10,
       hasAlpha := true, originalSize := 4, compressedSize := 2 } : ProcessResult).contentType =
      (if true = true then "image/png" else "image/jpeg") :=
  transparency_decider_amended testProcessor (envOfImage opaqueAlphaPng) smallPngData
    { size := { width := 10, height := 10 }, alpha := true }
    { data := [137, 80], contentType := "image/png", width := 10, height := 10,
      hasAlpha := true, originalSize := 4, compressedSize := 2 }
    rfl rfl

/-! ## C4: no pass-through path below the small-input threshold
(corrected) -/

/-- C4 counterexample: a 4-byte (far below 1MB) fully-opaque PNG is not
passed through — the pipeline re-encodes it, the output mime becomes
`image/jpeg`, and the output bytes are the encoder's output, not the
input bytes. -/
theorem passthrough_counterexample :
    smallPngData.length ≤ 1048576 ∧
    (testProcessor.Process (envOfImage opaquePng) smallPngData "image/png").map
      (fun r => r.contentType) = .ok "image/jpeg" ∧
    (testProcessor.Process (envOfImage opaquePng) smallPngData "image/png").map
      (fun r => r.data) = .ok [255, 216] ∧
    [255, 216] ≠ smallPngData :=
  ⟨by decide, rfl, rfl, by decide⟩

/-- C4 amended: there is no pass-through short-circuit. An input below
both resize thresholds (edges at most 3840, size at most 5MB) skips
only the resize — no target dimensions are set — and is still handed
to the encoder: a PNG without declared alpha is re-encoded to
`image/jpeg`, one with declared alpha is re-encoded to `image/png`, and
in both cases the output bytes are the encoder's output. -/
theorem no_passthrough_amended (p : Processor) (env : GoEnv) (data : List Nat)
    (md : ImgMetadata) (r : ProcessResult)
    (hmd : env.metadata data = .ok md)
    (hw : md.size.width ≤ 3840) (hh : md.size.height ≤ 3840)
    (hs : data.length ≤ 5242880)
    (hp : p.Process env data "image/png" = .ok r) :
    ∃ opts : BimgOptions, opts.width = 0 ∧ opts.height = 0 ∧
      ((md.alpha = false ∧ opts.type = ImgType.jpeg ∧ r.contentType = "image/jpeg" ∧
        env.process data opts = .ok r.data) ∨
       (md.alpha = true ∧ opts.type = ImgType.png ∧ r.contentType = "image/png" ∧
        env.process data opts = .ok r.data)) := by
  have hreal : p.hasRealTransparency env data = md.alpha := by
    unfold Processor.hasRealTransparency
    rw [hmd]
  unfold Processor.Process at hp
  rw [if_pos (show IsImageMIME "image/png" = true from rfl)] at hp
  unfold processWithCT at hp
  rw [hmd] at hp
  dsimp only at hp
  rw [hreal, Bool.and_self] at hp
  have hres : ¬ ((decide (3840 < md.size.width) || decide (3840 < md.size.height) ||
      decide (5242880 < data.length)) = true) := by
    rw [decide_eq_false (show ¬ (3840 < md.size.width) by omega),
        decide_eq_false (show ¬ (3840 < md.size.height) by omega),
        decide_eq_false (show ¬ (5242880 < data.length) by omega)]
    exact Bool.false_ne_true
  rw [if_neg hres] at hp
  cases halpha : md.alpha with
  | true =>
    rw [halpha] at hp
    rw [if_neg (by decide)] at hp
    by_cases hstrip : p.pngStrip = true
    · rw [if_pos hstrip] at hp
      split at hp
      · exact Except.noConfusion hp
      · rename_i pd hproc
        simp only [Processor.optimizePNG] at hp
        unfold finishResult at hp
        split at hp
        · rw [Except.ok.injEq] at hp
          subst hp
          exact ⟨_, rfl, rfl, Or.inr ⟨rfl, rfl, rfl, hproc⟩⟩
        · rw [Except.ok.injEq] at hp
          subst hp
          exact ⟨_, rfl, rfl, Or.inr ⟨rfl, rfl, rfl, hproc⟩⟩
    · rw [if_neg hstrip] at hp
      split at hp
      · exact Except.noConfusion hp
      · rename_i pd hproc
        simp only [Processor.optimizePNG] at hp
        unfold finishResult at hp
        split at hp
        · rw [Except.ok.injEq] at hp
          subst hp
          exact ⟨_, rfl, rfl, Or.inr ⟨rfl, rfl, rfl, hproc⟩⟩
        · rw [Except.ok.injEq] at hp
          subst hp
          exact ⟨_, rfl, rfl, Or.inr ⟨rfl, rfl, rfl, hproc⟩⟩
  | false =>
    rw [halpha] at hp
    rw [if_pos (by decide)] at hp
    split at hp
    · exact Except.noConfusion hp
    · rename_i pd hproc
      unfold finishResult at hp
      split at hp
      · rw [Except.ok.injEq] at hp
        subst hp
        exact ⟨_, rfl, rfl, Or.inl ⟨rfl, rfl, rfl, hproc⟩⟩
      · rw [Except.ok.injEq] at hp
        subst hp
        exact ⟨_, rfl, rfl, Or.inl ⟨rfl, rfl, rfl, hproc⟩⟩

/-- C4 amended witness: the small opaque PNG goes through the JPEG
encoder with no resize dimensions set. -/
theorem no_passthrough_amended_witness :
    ∃ opts : BimgOptions, opts.width = 0 ∧ opts.height = 0 ∧
      ((false = false ∧ opts.type = ImgType.jpeg ∧
        ({ data := [255, 216], contentType := "image/jpeg", width := 10, height := 10,
           hasAlpha := false, originalSize := 4, compressedSize := 2 } : ProcessResult).contentType =
          "image/jpeg" ∧
        (envOfImage opaquePng).process smallPngData opts =
          .ok ({ data := [255, 216], contentType := "image/jpeg", width := 10, height := 10,
                 hasAlpha := false, originalSize := 4,
                 compressedSize := 2 } : ProcessResult).data) ∨
       (false = true ∧ opts.type = ImgType.png ∧
        ({ data := [255, 216], contentType := "image/jpeg", width := 10, height := 10,
           hasAlpha := false, originalSize := 4, compressedSize := 2 } : ProcessResult).contentType =
          "image/png" ∧
        (envOfImage opaquePng).process smallPngData opts =
          .ok ({ data := [255, 216], contentType := "image/jpeg", width := 10, height := 10,
                 hasAlpha := false, originalSize := 4,
                 compressedSize := 2 } : ProcessResult).data)) :=
  no_passthrough_amended testProcessor (envOfImage opaquePng) smallPngData
    { size := { width := 10, height := 10 }, alpha := false }
    { data := [255, 216], contentType := "image/jpeg", width := 10, height := 10,
      hasAlpha := false, originalSize := 4, compressedSize := 2 }
    rfl (by decide) (by decide) (by decide) rfl

/-! ## C1: content-addressed dedup -/

/-- `ProcessFromData` on a successful processing run returns the
deterministic asset for the result and either leaves the store alone
(hit) or adds exactly the derived key (miss). -/
theorem ProcessFromData_ok (p : Processor) (env : GoEnv) (st : StoreState)
    (i : ProcessInput) (r : ProcessResult)
    (hr : p.Process env i.data i.contentType = .ok r) :
    ProcessFromData p env st i =
      .ok (mkAssetFor st r,
           if ObjectExists st (keyFor r) = true then st
           else { st with objects := keyFor r :: st.objects }) := by
  unfold ProcessFromData
  rw [hr]
  by_cases hex : ObjectExists st (Base32Key r.data (GetImageExtension r.contentType)) = true
  · simp [mkAssetFor, keyFor, hex]
  · rw [Bool.not_eq_true] at hex
    simp [mkAssetFor, keyFor, UploadObj, hex]

/-- C1. For any two processing calls sharing the bimg environment
(whose JPEG and PNG encoders never emit identical bytes), byte-identical
final data yields the same storage key; each call succeeds, reports
`deduped` exactly when the store already held its key, leaves the store
unchanged on a hit, and adds exactly that key on a miss. -/
theorem processFromData_dedup_key (p : Processor) (env : GoEnv)
    (hdisj : ∀ (d₁ d₂ : List Nat) (o₁ o₂ : BimgOptions) (b₁ b₂ : List Nat),
      o₁.type = ImgType.jpeg → o₂.type = ImgType.png →
      env.process d₁ o₁ = .ok b₁ → env.process d₂ o₂ = .ok b₂ → b₁ ≠ b₂)
    (i₁ i₂ : ProcessInput) (r₁ r₂ : ProcessResult)
    (hr₁ : p.Process env i₁.data i₁.contentType = .ok r₁)
    (hr₂ : p.Process env i₂.data i₂.contentType = .ok r₂)
    (hdata : r₁.data = r₂.data)
    (st₁ st₂ : StoreState) :
    ∃ (a₁ a₂ : Asset) (st₁' st₂' : StoreState),
      ProcessFromData p env st₁ i₁ = .ok (a₁, st₁') ∧
      ProcessFromData p env st₂ i₂ = .ok (a₂, st₂') ∧
      a₁.key = a₂.key ∧
      a₁.deduped = ObjectExists st₁ a₁.key ∧
      a₂.deduped = ObjectExists st₂ a₂.key ∧
      (ObjectExists st₁ a₁.key = true → st₁' = st₁) ∧
      (ObjectExists st₁ a₁.key = false → st₁' = { st₁ with objects := a₁.key :: st₁.objects }) ∧
      (ObjectExists st₂ a₂.key = true → st₂' = st₂) ∧
      (ObjectExists st₂ a₂.key = false → st₂' = { st₂ with objects := a₂.key :: st₂.objects }) := by
  have hct := Process_data_determines_ct p p env hdisj i₁.data i₂.data i₁.contentType
    i₂.contentType r₁ r₂ hr₁ hr₂ hdata
  have hkey : keyFor r₁ = keyFor r₂ := by
    unfold keyFor
    rw [hdata, hct]
  refine ⟨mkAssetFor st₁ r₁, mkAssetFor st₂ r₂,
    (if ObjectExists st₁ (keyFor r₁) = true then st₁
     else { st₁ with objects := keyFor r₁ :: st₁.objects }),
    (if ObjectExists st₂ (keyFor r₂) = true then st₂
     else { st₂ with objects := keyFor r₂ :: st₂.objects }),
    ProcessFromData_ok p env st₁ i₁ r₁ hr₁,
    ProcessFromData_ok p env st₂ i₂ r₂ hr₂,
    hkey, rfl, rfl, ?_, ?_, ?_, ?_⟩
  · intro hx
    rw [show (mkAssetFor st₁ r₁).key = keyFor r₁ from rfl] at hx
    rw [if_pos hx]
  · intro hx
    rw [show (mkAssetFor st₁ r₁).key = keyFor r₁ from rfl] at hx
    rw [if_neg (by rw [hx]; exact Bool.false_ne_true)]
    rfl
  · intro hx
    rw [show (mkAssetFor st₂ r₂).key = keyFor r₂ from rfl] at hx
    rw [if_pos hx]
  · intro hx
    rw [show (mkAssetFor st₂ r₂).key = keyFor r₂ from rfl] at hx
    rw [if_neg (by rw [hx]; exact Bool.false_ne_true)]
    rfl

/-- C1 witness: two identical uploads against an empty store. -/
theorem processFromData_dedup_key_witness :
    ∃ (a₁ a₂ : Asset) (st₁' st₂' : StoreState),
      ProcessFromData testProcessor (envOfImage opaquePng) emptyStore
        { data := smallPngData, contentType := "image/png", sourceURL := "upload" } =
        .ok (a₁, st₁') ∧
      ProcessFromData testProcessor (envOfImage opaquePng) emptyStore
        { data := smallPngData, contentType := "image/png", sourceURL := "upload" } =
        .ok (a₂, st₂') ∧
      a₁.key = a₂.key ∧
      a₁.deduped = ObjectExists emptyStore a₁.key ∧
      a₂.deduped = ObjectExists emptyStore a₂.key ∧
      (ObjectExists emptyStore a₁.key = true → st₁' = emptyStore) ∧
      (ObjectExists emptyStore a₁.key = false →
        st₁' = { emptyStore with objects := a₁.key :: emptyStore.objects }) ∧
      (ObjectExists emptyStore a₂.key = true → st₂' = emptyStore) ∧
      (ObjectExists emptyStore a₂.key = false →
        st₂' = { emptyStore with objects := a₂.key :: emptyStore.objects }) :=
  processFromData_dedup_key testProcessor (envOfImage opaquePng)
    (by
      intro d₁ d₂ o₁ o₂ b₁ b₂ h₁ h₂ hp₁ hp₂
      simp only [envOfImage] at hp₁ hp₂
      rw [h₁] at hp₁
      rw [h₂] at hp₂
      obtain rfl : [255, 216] = b₁ := by simpa using hp₁
      obtain rfl : [137, 80] = b₂ := by simpa using hp₂
      decide)
    { data := smallPngData, contentType := "image/png", sourceURL := "upload" }
    { data := smallPngData, contentType := "image/png", sourceURL := "upload" }
    { data := [255, 216], contentType := "image/jpeg", width := 10, height := 10,
      hasAlpha := false, originalSize := 4, compressedSize := 2 }
    { data := [255, 216], contentType := "image/jpeg", width := 10, height := 10,
      hasAlpha := false, originalSize := 4, compressedSize := 2 }
    rfl rfl rfl emptyStore emptyStore

end HackclubFormat
